import Mathlib

/-!
# YerfOS file table and flash log: a shallow embedding of `main/filesystem.c`

C strings and byte buffers are lists of byte values (`List Nat`); a `const char*`
argument is the list of its bytes up to (not including) the terminating NUL.
The global `files[MAX_FILES]` array is a function from slot index to record, the
flash partition is a function from byte address to byte value.  Machine integers
are `Nat`/`Int` with explicit reduction modulo `2^32` where the C code can wrap.

The ESP-IDF primitives (`esp_partition_*`, `esp_log_timestamp`, the heap) are not
part of the repository; they are modelled by the fields `flash`, `io`, `now`,
`heap_ok` and `has_partition` of the state.

Inputs on which the C code overruns one of its fixed buffers (a path of 256 bytes
or more passed to `find_file`, a leaf name of 32 bytes or more copied with
`strcpy`) have no defined behaviour in C; theorems that depend on such a copy
carry the corresponding length hypothesis.
-/

namespace YerfOS

/-! ## Constants of `filesystem.h` / `filesystem.c` -/

def MAX_FILES : Nat := 64
def MAX_FILENAME_LENGTH : Nat := 32
def MAX_FILE_SIZE : Nat := 1024
def MAX_PATH_LENGTH : Nat := 256
def SECTOR_SIZE : Nat := 4096
def NUM_SECTORS : Nat := 32
def HEADER_SIZE : Nat := 12

/-- The four bytes `'F','S','Y','S'`. -/
def HEADER_MAGIC : List Nat := [70, 83, 89, 83]

/-- Byte value of the path separator `'/'`. -/
def SLASH : Nat := 47
/-- Byte value of `'.'`. -/
def DOT : Nat := 46

/-- Modulus of `uint32_t` / `size_t` on the 32-bit target. -/
def U32 : Nat := 4294967296

def ESP_OK : Int := 0
def ESP_FAIL : Int := -1
def ESP_ERR_NO_MEM : Int := 257
def ESP_ERR_INVALID_SIZE : Int := 260
def ESP_ERR_NOT_FOUND : Int := 261

/-! ## Records -/

/-- The C `File` struct: `name[32]`, `data[1024]`, `uint32_t size`, `bool is_dir`,
`int parent_dir`. -/
structure File where
  name : List Nat
  data : List Nat
  size : Nat
  is_dir : Bool
  parent_dir : Int

/-- Size of the `File` struct with native layout on the 32-bit target:
32 + 1024 + 4 + 1 (+3 alignment bytes) + 4. -/
def SIZEOF_FILE : Nat := 1068

/-- A record of all-zero bytes, as left by `memset(files, 0, sizeof(files))`. -/
def zeroFile : File :=
  { name := List.replicate 32 0, data := List.replicate 1024 0, size := 0,
    is_dir := false, parent_dir := 0 }

/-- Byte `k` (0..3) of the little-endian image of a 32-bit value. -/
def le32_byte (v : Nat) (k : Nat) : Nat := (v / 256 ^ k) % 256

/-- The 32-bit unsigned value stored little-endian in four bytes. -/
def le32 (b0 b1 b2 b3 : Nat) : Nat :=
  b0 % 256 + 256 * (b1 % 256) + 65536 * (b2 % 256) + 16777216 * (b3 % 256)

/-- Two's-complement image of a C `int` as an unsigned 32-bit value. -/
def int_to_u32 (x : Int) : Nat := (x % (U32 : Int)).toNat

/-- The C `int` whose two's-complement image is the unsigned 32-bit value. -/
def u32_to_int (v : Nat) : Int := if v < 2147483648 then (v : Int) else (v : Int) - (U32 : Int)

/-- Byte at offset `o` of the in-memory image of one record.  The three
alignment bytes after `is_dir` carry no field and are taken as zero. -/
def File.byte (f : File) (o : Nat) : Nat :=
  if o < 32 then f.name.getD o 0
  else if o < 1056 then f.data.getD (o - 32) 0
  else if o < 1060 then le32_byte f.size (o - 1056)
  else if o = 1060 then (if f.is_dir then 1 else 0)
  else if o < 1064 then 0
  else le32_byte (int_to_u32 f.parent_dir) (o - 1064)

/-- The record whose in-memory image is the 1068 bytes `b 0 .. b 1067`. -/
def File.ofBytes (b : Nat → Nat) : File :=
  { name := (List.range 32).map b,
    data := (List.range 1024).map (fun j => b (32 + j)),
    size := le32 (b 1056) (b 1057) (b 1058) (b 1059),
    is_dir := decide (b 1060 % 256 ≠ 0),
    parent_dir := u32_to_int (le32 (b 1064) (b 1065) (b 1066) (b 1067)) }

/-- Byte `k` of the `files` array viewed as raw memory (`(uint8_t*)files + k`). -/
def files_bytes (files : Nat → File) (k : Nat) : Nat :=
  (files (k / SIZEOF_FILE)).byte (k % SIZEOF_FILE)

/-! ## State -/

/-- The globals of `filesystem.c` together with the modelled environment. -/
structure FS where
  /-- The array `files`. -/
  files : Nat → File
  num_files : Nat
  current_dir : Int
  /-- The C string held in `current_path`. -/
  current_path : List Nat
  /-- The cursor `current_sector`. -/
  current_sector : Nat
  /-- The function-local static of `fs_periodic_save`. -/
  last_save_time : Nat
  /-- Contents of the storage partition, by byte address. -/
  flash : Nat → Nat
  /-- Results of the coming partition primitives (erase, write, read), one per
  call in call order; when the list is used up, calls succeed. -/
  io : List Int
  /-- The value `esp_log_timestamp()` returns. -/
  now : Nat
  /-- Whether `malloc`/`calloc` return a buffer. -/
  heap_ok : Bool
  /-- Whether `esp_partition_find_first` finds the storage partition. -/
  has_partition : Bool

/-- The assignment `files[i] = r`. -/
def set_file (files : Nat → File) (i : Nat) (r : File) : Nat → File :=
  fun j => if j = i then r else files j

/-- The root record written by `fs_format` and by the first-boot path of
`fs_read_from_flash`: all bytes zero, then name `"/"`, `is_dir`, parent `-1`. -/
def root_file : File :=
  { zeroFile with name := SLASH :: List.replicate 31 0, is_dir := true, parent_dir := -1 }

/-- The array after `memset(files, 0, ..)` and the three root assignments. -/
def root_table : Nat → File := set_file (fun _ => zeroFile) 0 root_file

/-! ## C string helpers -/

/-- The C string stored in a byte buffer: the bytes before the first NUL. -/
def cstr (buf : List Nat) : List Nat := buf.takeWhile (fun c => decide (c ≠ 0))

/-- The call `strlen`. -/
def strlen (s : List Nat) : Nat := (cstr s).length

/-- Result of `strncpy(dst, src, 31); dst[31] = 0` on a 32-byte buffer: at most
31 bytes of `src`, zero-filled to 32 bytes. -/
def strncpy31 (src : List Nat) : List Nat :=
  (src.take 31) ++ List.replicate (32 - (src.take 31).length) 0

/-- Result of `memcpy(dst, src, n)`: the first `n` bytes replaced. -/
def memcpy (dst src : List Nat) (n : Nat) : List Nat := src.take n ++ dst.drop n

/-- Index of the last `'/'` (`strrchr(s, '/')`), if any. -/
def strrchr_slash : List Nat → Option Nat
  | [] => none
  | c :: cs =>
    match strrchr_slash cs with
    | some k => some (k + 1)
    | none => if c = SLASH then some 0 else none

/-- All tokens that successive `strtok(.., "/")` calls return: the maximal
non-empty runs of bytes other than `'/'`.  `acc` is the current run, reversed. -/
def strtok_aux : List Nat → List Nat → List (List Nat)
  | [], acc => if acc = [] then [] else [acc.reverse]
  | c :: cs, acc =>
    if c = SLASH then
      (if acc = [] then strtok_aux cs [] else acc.reverse :: strtok_aux cs [])
    else strtok_aux cs (c :: acc)

def strtok_all (s : List Nat) : List (List Nat) := strtok_aux s []

/-! ## Path resolution -/

/-- The test `files[i].parent_dir == parent && strcmp(files[i].name, name) == 0`. -/
def is_child (files : Nat → File) (parent : Int) (name : List Nat) (i : Nat) : Bool :=
  decide ((files i).parent_dir = parent) && decide (cstr (files i).name = name)

/-- The inner loop of `find_file`: the first slot below `n` passing `is_child`. -/
def find_child (files : Nat → File) (n : Nat) (parent : Int) (name : List Nat) : Option Nat :=
  (List.range n).find? (is_child files parent name)

/-- The outer loop of `find_file` over the remaining tokens. -/
def find_walk (files : Nat → File) (n : Nat) : List (List Nat) → Int → Int
  | [], current => current
  | tok :: toks, current =>
    match find_child files n current tok with
    | none => -1
    | some i => find_walk files n toks (i : Int)

def find_file (st : FS) (path : List Nat) : Int :=
  find_walk st.files st.num_files (strtok_all (cstr path))
    (if path.head? = some SLASH then 0 else st.current_dir)

/-- Splitting of a path into `(parent_path, leaf)` as done at the top of
`fs_create_file` and, on `full_path`, in `fs_make_dir`. -/
def split_path (path : List Nat) : List Nat × List Nat :=
  let pp := (cstr path).take (MAX_PATH_LENGTH - 1)
  match strrchr_slash pp with
  | some k => (if k = 0 then [SLASH] else pp.take k, pp.drop (k + 1))
  | none => ([DOT], pp)

/-! ## Partition primitives (modelled environment) -/

/-- Take the result of the next partition primitive from the script. -/
def io_next (st : FS) : Int × FS :=
  match st.io with
  | [] => (ESP_OK, st)
  | e :: rest => (e, { st with io := rest })

/-- Model of `esp_partition_erase_range`: on success every byte of the range
reads `0xFF`; on failure the flash is left as it was. -/
def esp_partition_erase_range (st : FS) (off size : Nat) : Int × FS :=
  let r := io_next st
  if r.1 ≠ ESP_OK then r
  else (ESP_OK, { r.2 with flash := fun a => if off ≤ a ∧ a < off + size then 255 else r.2.flash a })

/-- Model of `esp_partition_write` onto an erased range: on success the range
holds the buffer; on failure the flash is left as it was. -/
def esp_partition_write (st : FS) (off : Nat) (buf : Nat → Nat) (size : Nat) : Int × FS :=
  let r := io_next st
  if r.1 ≠ ESP_OK then r
  else (ESP_OK, { r.2 with flash := fun a => if off ≤ a ∧ a < off + size then buf (a - off) else r.2.flash a })

/-- Model of `esp_partition_read`: the buffer returned on success. -/
def esp_partition_read (st : FS) (off : Nat) : Int × FS × (Nat → Nat) :=
  let r := io_next st
  (r.1, r.2, fun k => r.2.flash (off + k))

/-- The call `esp_log_timestamp()` as a `uint32_t`. -/
def esp_log_timestamp (st : FS) : Nat := st.now % U32

/-! ## Flash log writer -/

/-- The value `sizeof(File) * num_files` as a `size_t`. -/
def files_size (num_files : Nat) : Nat := (SIZEOF_FILE * num_files) % U32

/-- The value `total_size` of `fs_write_to_flash`. -/
def total_size (num_files : Nat) : Nat := (HEADER_SIZE + files_size num_files) % U32

/-- The value `sectors_needed` of `fs_write_to_flash`. -/
def sectors_needed (num_files : Nat) : Nat :=
  ((total_size num_files + SECTOR_SIZE - 1) % U32) / SECTOR_SIZE

/-- The zeroed 4096-byte buffer of iteration `i == 0` after its four `memcpy`s:
magic, timestamp, record count, then the leading bytes of `files`. -/
def first_buffer (files : Nat → File) (num_files timestamp : Nat) (k : Nat) : Nat :=
  if k < 4 then HEADER_MAGIC.getD k 0
  else if k < 8 then le32_byte timestamp (k - 4)
  else if k < HEADER_SIZE then le32_byte num_files (k - 8)
  else if k - HEADER_SIZE < min (SECTOR_SIZE - HEADER_SIZE) (files_size num_files) then
    files_bytes files (k - HEADER_SIZE)
  else 0

/-- The buffer of an iteration `i > 0`: `write_size` bytes of `files` from byte
offset `i * SECTOR_SIZE - HEADER_SIZE`. -/
def next_buffer (files : Nat → File) (i write_size : Nat) (k : Nat) : Nat :=
  if k < write_size then files_bytes files (i * SECTOR_SIZE - HEADER_SIZE + k) else 0

/-- The `for` loop of `fs_write_to_flash`, with `remaining` iterations to go
starting at iteration `i`.  Returns at the first failing step. -/
def write_sectors (total timestamp : Nat) : Nat → Nat → FS → Int × FS
  | 0, _, st => (ESP_OK, st)
  | remaining + 1, i, st =>
    let sector := (st.current_sector + i) % NUM_SECTORS
    let e := esp_partition_erase_range st (sector * SECTOR_SIZE) SECTOR_SIZE
    if e.1 ≠ ESP_OK then e
    else
      let write_size := if i = 0 then SECTOR_SIZE else min SECTOR_SIZE (total - i * SECTOR_SIZE)
      if e.2.heap_ok = false then (ESP_ERR_NO_MEM, e.2)
      else
        let buf := if i = 0 then first_buffer e.2.files e.2.num_files timestamp
                   else next_buffer e.2.files i write_size
        let w := esp_partition_write e.2 (sector * SECTOR_SIZE) buf write_size
        if w.1 ≠ ESP_OK then w
        else write_sectors total timestamp remaining (i + 1) w.2

def fs_write_to_flash (st : FS) : Int × FS :=
  let timestamp := esp_log_timestamp st
  let total := total_size st.num_files
  let needed := sectors_needed st.num_files
  if needed > NUM_SECTORS then (ESP_ERR_INVALID_SIZE, st)
  else
    let r := write_sectors total timestamp needed 0 st
    if r.1 ≠ ESP_OK then r
    else (ESP_OK, { r.2 with current_sector := (st.current_sector + needed) % NUM_SECTORS })

/-! ## Flash log recovery -/

/-- Whether the first four bytes of a header equal `HEADER_MAGIC`. -/
def magic_ok (hdr : Nat → Nat) : Bool :=
  decide ([hdr 0 % 256, hdr 1 % 256, hdr 2 % 256, hdr 3 % 256] = HEADER_MAGIC)

/-- The `timestamp` field of a header. -/
def header_timestamp (hdr : Nat → Nat) : Nat := le32 (hdr 4) (hdr 5) (hdr 6) (hdr 7)

/-- The record count field of a header. -/
def header_count (hdr : Nat → Nat) : Nat := le32 (hdr 8) (hdr 9) (hdr 10) (hdr 11)

/-- Loop state of the header scan: `latest_timestamp`, `latest_sector`, state. -/
structure Scan where
  latest_timestamp : Nat
  latest_sector : Nat
  st : FS

/-- One iteration of the scanning loop of `fs_read_from_flash`. -/
def scan_step (s : Scan) (i : Nat) : Scan :=
  let r := esp_partition_read s.st (i * SECTOR_SIZE)
  if r.1 ≠ ESP_OK then { s with st := r.2.1 }
  else if magic_ok r.2.2 = false then { s with st := r.2.1 }
  else if header_timestamp r.2.2 > s.latest_timestamp then
    { latest_timestamp := header_timestamp r.2.2, latest_sector := i, st := r.2.1 }
  else { s with st := r.2.1 }

/-- The scanning loop over the sectors `0 .. n-1`. -/
def scan_sectors (st : FS) (n : Nat) : Scan :=
  (List.range n).foldl scan_step { latest_timestamp := 0, latest_sector := 0, st := st }

/-- The array after `memcpy(files, read_buffer + HEADER_SIZE, sizeof(File) * n)`. -/
def load_files (files : Nat → File) (buf : Nat → Nat) (n : Nat) : Nat → File :=
  fun i => if i < n then File.ofBytes (fun o => buf (HEADER_SIZE + SIZEOF_FILE * i + o)) else files i

def fs_read_from_flash (st : FS) : Int × FS :=
  let s := scan_sectors st NUM_SECTORS
  if s.latest_timestamp = 0 then
    (ESP_OK, { s.st with num_files := 1, files := root_table, current_sector := 0 })
  else if s.st.heap_ok = false then (ESP_ERR_NO_MEM, s.st)
  else
    let r := esp_partition_read s.st (s.latest_sector * SECTOR_SIZE)
    if r.1 ≠ ESP_OK then (r.1, r.2.1)
    else
      let st1 : FS := { r.2.1 with num_files := header_count r.2.2 }
      if st1.num_files = 0 ∨ st1.num_files > MAX_FILES then (ESP_ERR_INVALID_SIZE, st1)
      else if files_size st1.num_files > SECTOR_SIZE - HEADER_SIZE then (ESP_ERR_INVALID_SIZE, st1)
      else
        (ESP_OK, { st1 with files := load_files st1.files r.2.2 st1.num_files,
                            current_sector := (s.latest_sector + 1) % NUM_SECTORS })

/-! ## Persistence scheduler, format, initialisation -/

def fs_periodic_save (st : FS) : FS :=
  let current_time := esp_log_timestamp st
  if (current_time + U32 - st.last_save_time % U32) % U32 > 300000 then
    { (fs_write_to_flash st).2 with last_save_time := current_time }
  else st

def fs_format (st : FS) : Int × FS :=
  fs_write_to_flash { st with num_files := 1, files := root_table, current_sector := 0 }

/-- The record of the compound literal in `fs_format_storage`. -/
def storage_root : File := root_file

def fs_format_storage (st : FS) : Int × FS :=
  let e := io_next st
  if e.1 ≠ ESP_OK then e
  else
    fs_write_to_flash { e.2 with flash := fun _ => 255, num_files := 1,
                                 files := set_file e.2.files 0 storage_root }

def fs_init_storage (st : FS) : Int × FS :=
  if st.has_partition = false then (ESP_FAIL, st)
  else
    let r := esp_partition_read st 0
    if r.1 ≠ ESP_OK then (r.1, r.2.1)
    else if magic_ok r.2.2 = false then fs_format_storage r.2.1
    else (ESP_OK, r.2.1)

def fs_init (st : FS) : Int × FS :=
  let a := fs_init_storage st
  if a.1 ≠ ESP_OK then a
  else
    let b := fs_read_from_flash a.2
    if b.1 = ESP_ERR_NOT_FOUND then
      let c := fs_format b.2
      if c.1 ≠ ESP_OK then c else (ESP_OK, c.2)
    else if b.1 ≠ ESP_OK then b
    else (ESP_OK, b.2)

/-! ## File table operations -/

/-- The duplicate-name loop of `fs_create_file`. -/
def name_taken (files : Nat → File) (n : Nat) (parent : Int) (name : List Nat) : Bool :=
  (List.range n).any (is_child files parent name)

/-- The duplicate-name loop of `fs_make_dir`, which also requires `is_dir`. -/
def dir_taken (files : Nat → File) (n : Nat) (parent : Int) (name : List Nat) : Bool :=
  (List.range n).any (fun i => is_child files parent name i && (files i).is_dir)

/-- The test `parent_dir == -1 || !files[parent_dir].is_dir`. -/
def bad_parent (files : Nat → File) (parent_dir : Int) : Bool :=
  decide (parent_dir = -1) || !(files parent_dir.toNat).is_dir

def fs_create_file (st : FS) (path content : List Nat) : Bool × FS :=
  let parent_path := (split_path path).1
  let file_name := (split_path path).2
  let parent_dir := find_file st parent_path
  if bad_parent st.files parent_dir then (false, st)
  else if name_taken st.files st.num_files parent_dir file_name then (false, st)
  else if st.num_files ≥ MAX_FILES then (false, st)
  else
    let size := min (strlen content % U32) MAX_FILE_SIZE
    let slot := st.files st.num_files
    let r : File :=
      { name := strncpy31 file_name, is_dir := false, parent_dir := parent_dir,
        size := size, data := memcpy slot.data content size }
    (true, { st with files := set_file st.files st.num_files r, num_files := st.num_files + 1 })

/-- The `full_path` built at the top of `fs_write_file`, or `none` where it
prints "Path too long". -/
def write_full_path (st : FS) (filename : List Nat) : Option (List Nat) :=
  if filename.head? ≠ some SLASH then
    let current_path_len := strlen st.current_path
    let separator_len := if st.current_path.getD (current_path_len - 1) 0 = SLASH then 0 else 1
    if current_path_len + separator_len + strlen filename ≥ MAX_PATH_LENGTH then none
    else some (st.current_path ++ (if separator_len = 1 then [SLASH] else []) ++ filename)
  else if strlen filename ≥ MAX_PATH_LENGTH then none
  else some filename

def fs_write_file (st : FS) (filename content : List Nat) (size : Nat) : Bool × FS :=
  match write_full_path st filename with
  | none => (false, st)
  | some full_path =>
    let file_index := find_file st full_path
    let c : Bool × FS :=
      if file_index = -1 then fs_create_file st full_path content else (true, st)
    if c.1 = false then (false, c.2)
    else
      let st1 := c.2
      let file_index := if file_index = -1 then find_file st1 full_path else file_index
      if file_index = -1 ∨ (st1.files file_index.toNat).is_dir = true then (false, st1)
      else if size > MAX_FILE_SIZE then (false, st1)
      else
        let k := file_index.toNat
        let r : File := { st1.files k with data := memcpy (st1.files k).data content size, size := size }
        (true, { st1 with files := set_file st1.files k r })

/-- The bytes and size `fs_read_file` hands back, or `none` where it returns false. -/
def fs_read_file (st : FS) (path : List Nat) : Option (List Nat × Nat) :=
  let file_index := find_file st path
  if file_index = -1 ∨ (st.files file_index.toNat).is_dir = true then none
  else some ((st.files file_index.toNat).data.take (st.files file_index.toNat).size,
             (st.files file_index.toNat).size)

/-- The emptiness loop of `fs_delete_file`: some slot has `parent_dir == file_index`. -/
def has_child (files : Nat → File) (n : Nat) (file_index : Int) : Bool :=
  (List.range n).any (fun i => decide ((files i).parent_dir = file_index))

/-- The array after the shifting loop of `fs_delete_file`
(`for (i = file_index; i < num_files - 1; i++) files[i] = files[i + 1]`, the
bound computed in `uint32_t`). -/
def shift_down (files : Nat → File) (n k : Nat) : Nat → File :=
  fun i => if k ≤ i ∧ i < (n + U32 - 1) % U32 then files (i + 1) else files i

def fs_delete_file (st : FS) (path : List Nat) : Bool × FS :=
  let file_index := find_file st path
  if file_index = -1 then (false, st)
  else if (st.files file_index.toNat).is_dir = true ∧ has_child st.files st.num_files file_index = true then
    (false, st)
  else
    (true, fs_periodic_save
      { st with files := shift_down st.files st.num_files file_index.toNat,
                num_files := (st.num_files + U32 - 1) % U32 })

/-- The `full_path` built at the top of `fs_make_dir`, or `none` where it
prints "Path too long". -/
def mkdir_full_path (st : FS) (path : List Nat) : Option (List Nat) :=
  if path.head? = some SLASH then some (path.take (MAX_PATH_LENGTH - 1))
  else
    let current_path_len := strlen st.current_path
    if current_path_len + strlen path + 2 > MAX_PATH_LENGTH then none
    else some (st.current_path
      ++ (if st.current_path.getD (current_path_len - 1) 0 ≠ SLASH then [SLASH] else []) ++ path)

def fs_make_dir (st : FS) (path : List Nat) : Bool × FS :=
  if st.num_files ≥ MAX_FILES then (false, st)
  else
    match mkdir_full_path st path with
    | none => (false, st)
    | some full_path =>
      let parent_path := (split_path full_path).1
      let dir_name := (split_path full_path).2
      let parent_dir := find_file st parent_path
      if bad_parent st.files parent_dir then (false, st)
      else if dir_taken st.files st.num_files parent_dir dir_name then (false, st)
      else
        let slot := st.files st.num_files
        let r : File := { slot with name := strncpy31 dir_name, is_dir := true,
                                    parent_dir := parent_dir, size := 0 }
        (true, fs_periodic_save
          { st with files := set_file st.files st.num_files r, num_files := st.num_files + 1 })

/-! ## Reference description of the header scan -/

/-- The first twelve bytes (and beyond) of sector `i`, by offset in the sector. -/
def sector_bytes (flash : Nat → Nat) (i : Nat) : Nat → Nat := fun k => flash (i * SECTOR_SIZE + k)

/-- The scan of `fs_read_from_flash` when every header read succeeds, on the
flash alone: the pair `(latest_timestamp, latest_sector)` after one more sector. -/
def select_step (flash : Nat → Nat) (acc : Nat × Nat) (i : Nat) : Nat × Nat :=
  if magic_ok (sector_bytes flash i) = false then acc
  else if header_timestamp (sector_bytes flash i) > acc.1 then
    (header_timestamp (sector_bytes flash i), i)
  else acc

/-- The pair `(latest_timestamp, latest_sector)` after the sectors `0 .. n-1`. -/
def select_latest (flash : Nat → Nat) (n : Nat) : Nat × Nat :=
  (List.range n).foldl (select_step flash) (0, 0)

/-- Every scripted primitive result is `ESP_OK`. -/
def all_ok (io : List Int) : Prop := ∀ e ∈ io, e = ESP_OK

instance (io : List Int) : Decidable (all_ok io) := by
  unfold all_ok; infer_instance


/-! ## Tables built by successful creations -/

/-- The record occupies its C types: a 32-byte name buffer, a 1024-byte data
buffer, a `uint32_t` size and an `int` parent index. -/
def File.wf (f : File) : Prop :=
  f.name.length = 32 ∧ f.data.length = 1024 ∧ f.size < U32 ∧
  -2147483648 ≤ f.parent_dir ∧ f.parent_dir < 2147483648

/-- States whose table is obtained from the fresh root-only table by successful
`fs_create_file` and `fs_make_dir` calls. -/
inductive Built : FS → Prop
  | root (st : FS) (hfiles : st.files = root_table) (hcount : st.num_files = 1)
      (hdir : -2147483648 ≤ st.current_dir ∧ st.current_dir < 2147483648) : Built st
  | create (st : FS) (path content : List Nat) (h : Built st)
      (hok : (fs_create_file st path content).1 = true) : Built (fs_create_file st path content).2
  | mkdir (st : FS) (path : List Nat) (h : Built st)
      (hok : (fs_make_dir st path).1 = true) : Built (fs_make_dir st path).2

/-- The state `b` has the table and current directory of `a`. -/
def same_table (a b : FS) : Prop :=
  b.files = a.files ∧ b.num_files = a.num_files ∧ b.current_dir = a.current_dir

/-- The flash after a one-sector snapshot of the state has been written at the
cursor: the cursor's sector holds the first buffer, the rest is untouched. -/
def snapshot_flash (st : FS) : Nat → Nat :=
  fun a =>
    if (st.current_sector + 0) % NUM_SECTORS * SECTOR_SIZE ≤ a ∧
        a < (st.current_sector + 0) % NUM_SECTORS * SECTOR_SIZE + SECTOR_SIZE then
      first_buffer st.files st.num_files (esp_log_timestamp st)
        (a - (st.current_sector + 0) % NUM_SECTORS * SECTOR_SIZE)
    else st.flash a

/-- The state `b` differs from `a` at most in the primitive script. -/
def same_but_io (a b : FS) : Prop := b = { a with io := b.io }

/-! ## Changing the current directory -/

/-- Result of `strncat(dst, src, MAX_PATH_LENGTH - strlen(dst) - 1)` on the C
string `dst`. -/
def strncat_path (dst src : List Nat) : List Nat :=
  cstr dst ++ (cstr src).take (MAX_PATH_LENGTH - strlen dst - 1)

/-- The string left in `current_path` by the `".."` branch of `fs_change_dir`:
cut at the last `'/'`, or just after it when it is the first byte.  Without any
`'/'` the C code dereferences a null pointer; the string is kept here. -/
def path_up (current_path : List Nat) : List Nat :=
  match strrchr_slash (cstr current_path) with
  | some k => if k ≠ 0 then (cstr current_path).take k else (cstr current_path).take 1
  | none => current_path

def fs_change_dir (st : FS) (path : List Nat) : Bool × FS :=
  if cstr path = [SLASH] then
    (true, { st with current_dir := 0, current_path := [SLASH] })
  else if cstr path = [DOT, DOT] then
    (if st.current_dir ≠ 0 then
      (true, { st with current_dir := (st.files st.current_dir.toNat).parent_dir,
                       current_path := path_up st.current_path })
    else (true, st))
  else
    let dir_index := find_file st path
    if dir_index = -1 ∨ (st.files dir_index.toNat).is_dir = false then (false, st)
    else
      (true, { st with
        current_dir := dir_index,
        current_path :=
          if path.head? = some SLASH then (cstr path).take (MAX_PATH_LENGTH - 1)
          else
            strncat_path
              (if cstr st.current_path ≠ [SLASH] then strncat_path st.current_path [SLASH]
               else st.current_path)
              path })

/-! ## Reference path resolution, after the specification -/

/-- The non-empty `'/'`-separated segments of a path, in order. -/
def ref_segments (path : List Nat) : List (List Nat) :=
  (path.splitOn SLASH).filter (fun seg => decide (seg ≠ []))

/-- The first record in table order whose name is `seg` and whose parent is
`position`, if any. -/
def ref_child (files : Nat → File) (n : Nat) (position : Int) (seg : List Nat) : Option Nat :=
  ((List.range n).filter
    (fun i => decide (cstr (files i).name = seg ∧ (files i).parent_dir = position))).head?

/-- One step of the reference walk; `none` is the NotFound outcome. -/
def ref_step (files : Nat → File) (n : Nat) (position : Option Int) (seg : List Nat) :
    Option Int :=
  match position with
  | none => none
  | some p => (ref_child files n p seg).map Int.ofNat

/-- The reference walk: start at index 0 for a path beginning with `'/'`, else
at the current directory, and consume the non-empty segments in order;
NotFound is reported as `-1`. -/
def ref_resolve (st : FS) (path : List Nat) : Int :=
  ((ref_segments (cstr path)).foldl (ref_step st.files st.num_files)
    (some (if path.head? = some SLASH then 0 else st.current_dir))).getD (-1)

/-! ## The logical snapshot stream -/

/-- Byte `k` of the stream `fs_write_to_flash` serialises: magic at 0, timestamp
at 4, record count at 8, the bytes of `files` from 12. -/
def snapshot_stream (st : FS) (k : Nat) : Nat :=
  if k < 4 then HEADER_MAGIC.getD k 0
  else if k < 8 then le32_byte (esp_log_timestamp st) (k - 4)
  else if k < HEADER_SIZE then le32_byte st.num_files (k - 8)
  else files_bytes st.files (k - HEADER_SIZE)

/-- The sector iteration `i` of a write started in state `st` targets. -/
def target_sector (st : FS) (i : Nat) : Nat := (st.current_sector + i) % NUM_SECTORS

/-- The state `b` differs from `a` at most in the flash and the primitive script. -/
def same_but_flash_io (a b : FS) : Prop := b = { a with flash := b.flash, io := b.io }

/-- The elapsed-time test of `fs_periodic_save`, in `uint32_t` arithmetic. -/
def save_due (st : FS) : Prop :=
  (esp_log_timestamp st + U32 - st.last_save_time % U32) % U32 > 300000

instance (st : FS) : Decidable (save_due st) := by
  unfold save_due; infer_instance

/-- The state `b` differs from `a` at most in the table (`files`, `num_files`). -/
def same_but_table (a b : FS) : Prop :=
  b = { a with files := b.files, num_files := b.num_files }

/-- A path segment: non-empty, without `'/'` and without NUL. -/
def is_name (s : List Nat) : Prop := s ≠ [] ∧ ∀ c ∈ s, c ≠ SLASH ∧ c ≠ 0

instance (s : List Nat) : Decidable (is_name s) := by
  unfold is_name; infer_instance

/-- The state `fs_make_dir` has reached when it calls `fs_periodic_save`: the
directory record written at slot `num_files` and the count incremented. -/
def mkdir_table (st : FS) (full : List Nat) : FS :=
  { st with
    files := set_file st.files st.num_files
      { st.files st.num_files with
        name := strncpy31 (split_path full).2, is_dir := true,
        parent_dir := find_file st (split_path full).1, size := 0 },
    num_files := st.num_files + 1 }

/-- The state `fs_delete_file` has reached when it calls `fs_periodic_save`:
the later records shifted down and the count decremented. -/
def delete_table (st : FS) (path : List Nat) : FS :=
  { st with
    files := shift_down st.files st.num_files (find_file st path).toNat,
    num_files := (st.num_files + U32 - 1) % U32 }

/-- The value `write_size` of iteration `i` of `fs_write_to_flash`. -/
def write_size (total i : Nat) : Nat :=
  if i = 0 then SECTOR_SIZE else min SECTOR_SIZE (total - i * SECTOR_SIZE)

/-- The contents of `write_buffer` in iteration `i` of `fs_write_to_flash`. -/
def write_buffer (files : Nat → File) (num_files timestamp total i : Nat) : Nat → Nat :=
  if i = 0 then first_buffer files num_files timestamp
  else next_buffer files i (write_size total i)

/-- The flash after sector `sector` has been erased and `size` bytes of `buf`
written at its start. -/
def sector_written (flash : Nat → Nat) (sector : Nat) (buf : Nat → Nat) (size : Nat) :
    Nat → Nat :=
  fun a =>
    if sector * SECTOR_SIZE ≤ a ∧ a < sector * SECTOR_SIZE + size then buf (a - sector * SECTOR_SIZE)
    else if sector * SECTOR_SIZE ≤ a ∧ a < sector * SECTOR_SIZE + SECTOR_SIZE then 255
    else flash a

/-- The state `fs_write_file` returns on success: in the state `st1` reached
after the optional creation, `size` bytes of `content` copied into the data of
record `k` and its size set. -/
def write_target (st1 : FS) (k : Nat) (content : List Nat) (size : Nat) : FS :=
  { st1 with
    files := set_file st1.files k
      { st1.files k with data := memcpy (st1.files k).data content size, size := size } }

/-! ## Concrete states used in examples -/

/-- The globals as the C runtime initialises them, over an erased partition on
which every primitive succeeds, at uptime 1000 ms. -/
def boot_state : FS :=
  { files := fun _ => zeroFile, num_files := 0, current_dir := 0, current_path := [SLASH],
    current_sector := 0, last_save_time := 0, flash := fun _ => 255, io := [], now := 1000,
    heap_ok := true, has_partition := true }

/-- The root-only table (as after `fs_format`) in the boot environment. -/
def fresh_state : FS := { boot_state with files := root_table, num_files := 1 }

/-- The partition whose sector `s` starts with the bytes `bytes` and is
erased (`0xFF`) everywhere else. -/
def flash_with (s : Nat) (bytes : List Nat) : Nat → Nat :=
  fun a => if a / SECTOR_SIZE = s then bytes.getD (a % SECTOR_SIZE) 255 else 255

/-- The partition whose sectors `s1` and `s2` start with the bytes `b1` and `b2`
and which is erased everywhere else. -/
def flash_with_two (s1 : Nat) (b1 : List Nat) (s2 : Nat) (b2 : List Nat) : Nat → Nat :=
  fun a => if a / SECTOR_SIZE = s1 then b1.getD (a % SECTOR_SIZE) 255
           else if a / SECTOR_SIZE = s2 then b2.getD (a % SECTOR_SIZE) 255 else 255

/-- A snapshot header: magic `FSYS`, the timestamp `ts` and the count `n`, both
below 256 here. -/
def small_header (ts n : Nat) : List Nat := [70, 83, 89, 83, ts, 0, 0, 0, n, 0, 0, 0]

/-- A table of 64 records: the root and 63 empty files `/A`, `/B`, ... under it. -/
def full_state : FS :=
  { fresh_state with
    files := fun i => if i = 0 then root_file
                      else { zeroFile with name := strncpy31 [64 + i], parent_dir := 0 },
    num_files := 64 }

/-- The table after `mkdir /a`, `mkdir /b` and creating the empty file `/b/f`
on the fresh table: records `/`, `a`, `b`, `f` at indices 0..3. -/
def table_a_b_f : FS :=
  (fs_create_file (fs_make_dir (fs_make_dir fresh_state [47, 97]).2 [47, 98]).2
    [47, 98, 47, 102] []).2

/-- The table after `mkdir /..`, `mkdir /../b` and creating the empty file
`/../b/c` on the fresh table: a directory literally named `..` under the root. -/
def table_dotdot : FS :=
  (fs_create_file
    (fs_make_dir (fs_make_dir fresh_state [47, 46, 46]).2 [47, 46, 46, 47, 98]).2
    [47, 46, 46, 47, 98, 47, 99] []).2

/-- The table after `mkdir /a`, `mkdir /a/b` and creating the empty file
`/a/b/c` on the fresh table. -/
def table_nested : FS :=
  (fs_create_file
    (fs_make_dir (fs_make_dir fresh_state [47, 97]).2 [47, 97, 47, 98]).2
    [47, 97, 47, 98, 47, 99] []).2

/-- The fresh table with the directory `/a` (after `mkdir /a`). -/
def table_a : FS := (fs_make_dir fresh_state [47, 97]).2

/-- The state after `cd a/` and `cd ..` on `table_a`. -/
def table_a_cd : FS := (fs_change_dir (fs_change_dir table_a [97, 47]).2 [46, 46]).2

/-- The fresh table at uptime 400000 ms, never saved, on a partition whose next
primitive call fails with code 7. -/
def save_fail_state : FS := { fresh_state with io := [7], now := 400000 }

/-- The globals as the C runtime initialises them after a restart, over the
partition as the state `st` leaves it; the uptime starts again. -/
def reboot (st : FS) : FS := { boot_state with flash := st.flash }

/-- The state `fs_format_storage` hands to `fs_write_to_flash` on the first boot. -/
def formatted_state : FS :=
  { boot_state with
    flash := fun _ => 255, num_files := 1, files := set_file boot_state.files 0 storage_root }

/-- First boot: `fs_init` on an erased partition. -/
def first_boot : FS := (fs_init boot_state).2

/-- First session at its save: at uptime 400000 ms `/a` has been created with
content `hi`. -/
def session_one : FS :=
  (fs_create_file { first_boot with now := 400000 } [47, 97] [104, 105]).2

/-- Second boot: restart after the save of the first session, then `fs_init`. -/
def second_boot : FS := (fs_init (reboot (fs_write_to_flash session_one).2)).2

/-- Second session at its save: at uptime 5000 ms `/b` has been created with
content `yo`. -/
def session_two : FS :=
  (fs_create_file { second_boot with now := 5000 } [47, 98] [121, 111]).2

end YerfOS

namespace YerfOS

/-! ## Rejections that leave the table untouched -/

theorem has_child_of_exists (files : Nat → File) (n : Nat) (k : Int)
    (h : ∃ i, i < n ∧ (files i).parent_dir = k) : has_child files n k = true := by
  obtain ⟨i, hi, hp⟩ := h
  unfold has_child
  rw [List.any_eq_true]
  exact ⟨i, List.mem_range.mpr hi, by simp [hp]⟩

/-- C5. With `MAX_FILES` records in the table, `fs_create_file` and `fs_make_dir`
return false for every path and content and leave the whole state, hence the
record count and every record, as it was. -/
theorem capacity_full_rejects (st : FS) (hfull : st.num_files = MAX_FILES)
    (path content : List Nat) :
    fs_create_file st path content = (false, st) ∧ fs_make_dir st path = (false, st) := by
  constructor
  · unfold fs_create_file
    simp only [hfull, ge_iff_le, le_refl, if_true]
    split_ifs <;> rfl
  · unfold fs_make_dir
    simp [hfull]

theorem capacity_full_rejects_witness :
    full_state.num_files = MAX_FILES ∧
    (fs_create_file full_state [47, 122] [104, 105] = (false, full_state) ∧
      fs_make_dir full_state [47, 122] = (false, full_state)) :=
  ⟨by decide, capacity_full_rejects full_state (by decide) [47, 122] [104, 105]⟩

/-- C6. When the path resolves to a directory and some record below `num_files`
has that index as its parent, `fs_delete_file` returns false and leaves the
state (record count and all records) unchanged. -/
theorem delete_nonempty_dir_rejected (st : FS) (path : List Nat)
    (hfound : find_file st path ≠ -1)
    (hdir : (st.files (find_file st path).toNat).is_dir = true)
    (hchild : ∃ i, i < st.num_files ∧ (st.files i).parent_dir = find_file st path) :
    fs_delete_file st path = (false, st) := by
  unfold fs_delete_file
  simp only [hfound, if_false]
  rw [if_pos ⟨hdir, has_child_of_exists _ _ _ hchild⟩]

theorem delete_nonempty_dir_rejected_witness :
    find_file (fs_create_file fresh_state [47, 97] []).2 [47] ≠ -1 ∧
    fs_delete_file (fs_create_file fresh_state [47, 97] []).2 [47]
      = (false, (fs_create_file fresh_state [47, 97] []).2) :=
  ⟨by decide,
   delete_nonempty_dir_rejected (fs_create_file fresh_state [47, 97] []).2 [47]
     (by decide) (by decide) ⟨1, by decide, by decide⟩⟩

set_option maxRecDepth 100000 in
/-- C9 (the code at the failing input). On the root-only table,
`fs_write_file("/a", c, 1025)` with 1025 bytes `'x'` returns false, yet the table
now has a second record: the file `a` under the root with the content cut to
`MAX_FILE_SIZE` bytes. -/
theorem write_oversized_missing_creates :
    (fs_write_file fresh_state [47, 97] (List.replicate 1025 120) 1025).1 = false ∧
    (fs_write_file fresh_state [47, 97] (List.replicate 1025 120) 1025).2.num_files = 2 ∧
    ((fs_write_file fresh_state [47, 97] (List.replicate 1025 120) 1025).2.files 1).size = 1024 ∧
    ((fs_write_file fresh_state [47, 97] (List.replicate 1025 120) 1025).2.files 1).parent_dir = 0 ∧
    cstr ((fs_write_file fresh_state [47, 97] (List.replicate 1025 120) 1025).2.files 1).name
      = [97] := by
  refine ⟨by decide, by decide, by decide, by decide, by decide⟩

/-- C10 (the code at the failing input). On the root-only table with the root as
current directory, `fs_create_file("a", "")` returns false and adds no record:
the parent path `"."` is looked up as a child name and not found. -/
theorem create_without_slash_fails :
    (split_path [97]).1 = [DOT] ∧
    find_file fresh_state [DOT] = -1 ∧
    (fs_create_file fresh_state [97] []).1 = false ∧
    (fs_create_file fresh_state [97] []).2.num_files = 1 := by
  refine ⟨by decide, by decide, by decide, by decide⟩

/-! ## Duplicate names -/

theorem cstr_ne_zero (s : List Nat) : ∀ c ∈ cstr s, c ≠ 0 := by
  intro c hc
  have := List.mem_takeWhile_imp hc
  simpa using this

theorem cstr_append_zeros (l : List Nat) (m : Nat) (h : ∀ c ∈ l, c ≠ 0) :
    cstr (l ++ List.replicate m 0) = l := by
  induction l with
  | nil =>
    cases m with
    | zero => rfl
    | succ m => simp [cstr, List.replicate_succ]
  | cons a l ih =>
    have ha : decide (a ≠ 0) = true := by simpa using h a (List.mem_cons_self _ _)
    have hl : ∀ c ∈ l, c ≠ 0 := fun c hc => h c (List.mem_cons_of_mem _ hc)
    have ih2 := ih hl
    unfold cstr at ih2 ⊢
    rw [List.cons_append, List.takeWhile_cons, ha, if_pos rfl, ih2]

theorem cstr_strncpy31 (l : List Nat) (h : ∀ c ∈ l, c ≠ 0) (hlen : l.length < MAX_FILENAME_LENGTH) :
    cstr (strncpy31 l) = l := by
  have hl : l.length ≤ 31 := by simp [MAX_FILENAME_LENGTH] at hlen; omega
  unfold strncpy31
  rw [List.take_of_length_le hl]
  exact cstr_append_zeros l _ h

theorem split_path_leaf_ne_zero (path : List Nat) : ∀ c ∈ (split_path path).2, c ≠ 0 := by
  intro c hc
  have hpp : ∀ c ∈ (cstr path).take (MAX_PATH_LENGTH - 1), c ≠ 0 :=
    fun c hc => cstr_ne_zero path c (List.mem_of_mem_take hc)
  unfold split_path at hc
  simp only at hc
  split at hc
  · exact hpp c (List.mem_of_mem_drop hc)
  · exact hpp c hc

theorem is_child_set_file_of_ne (files : Nat → File) (n : Nat) (r : File) (cur : Int)
    (tok : List Nat) (j : Nat) (hj : j ≠ n) :
    is_child (set_file files n r) cur tok j = is_child files cur tok j := by
  simp [is_child, set_file, hj]

theorem find_congr {p q : Nat → Bool} (l : List Nat) (h : ∀ x ∈ l, p x = q x) :
    l.find? p = l.find? q := by
  induction l with
  | nil => rfl
  | cons a l ih =>
    have hl : ∀ x ∈ l, p x = q x := fun x hx => h x (List.mem_cons_of_mem _ hx)
    rw [List.find?_cons, List.find?_cons, h a (List.mem_cons_self _ _), ih hl]

theorem find_child_extend (files : Nat → File) (n : Nat) (r : File) (cur : Int)
    (tok : List Nat) (i : Nat) (h : find_child files n cur tok = some i) :
    find_child (set_file files n r) (n + 1) cur tok = some i := by
  unfold find_child at h ⊢
  rw [List.range_succ, List.find?_append]
  have hcongr : (List.range n).find? (is_child (set_file files n r) cur tok)
      = (List.range n).find? (is_child files cur tok) := by
    apply find_congr
    intro j hj
    exact is_child_set_file_of_ne files n r cur tok j (Nat.ne_of_lt (List.mem_range.mp hj))
  rw [hcongr, h]
  rfl

theorem find_walk_extend (files : Nat → File) (n : Nat) (r : File) (toks : List (List Nat)) :
    ∀ cur : Int, find_walk files n toks cur ≠ -1 →
      find_walk (set_file files n r) (n + 1) toks cur = find_walk files n toks cur := by
  induction toks with
  | nil => intro cur _; rfl
  | cons tok toks ih =>
    intro cur h
    simp only [find_walk] at h ⊢
    cases hfc : find_child files n cur tok with
    | none => simp [hfc] at h
    | some i =>
      rw [hfc] at h
      rw [find_child_extend files n r cur tok i hfc]
      exact ih _ h

theorem find_file_extend (st : FS) (r : File) (path : List Nat) (h : find_file st path ≠ -1) :
    find_file
      { st with files := set_file st.files st.num_files r, num_files := st.num_files + 1 } path
      = find_file st path := by
  unfold find_file at h ⊢
  exact find_walk_extend st.files st.num_files r _ _ h

theorem name_taken_last (files : Nat → File) (n : Nat) (r : File) (p : Int) (name : List Nat)
    (hp : r.parent_dir = p) (hn : cstr r.name = name) :
    name_taken (set_file files n r) (n + 1) p name = true := by
  unfold name_taken
  rw [List.any_eq_true]
  exact ⟨n, List.mem_range.mpr (Nat.lt_succ_self n), by simp [is_child, set_file, hp, hn]⟩

/-- C7. If `fs_create_file` succeeds for a path whose leaf name fits the 32-byte
`file_name` buffer, a second `fs_create_file` of the same path (with any
content) returns false and leaves the state unchanged. This holds for every
path, in particular for every absolute path such as `"/a"`. -/
theorem create_twice_rejected (st : FS) (path content content2 : List Nat)
    (hleaf : (split_path path).2.length < MAX_FILENAME_LENGTH)
    (hfirst : (fs_create_file st path content).1 = true) :
    fs_create_file (fs_create_file st path content).2 path content2
      = (false, (fs_create_file st path content).2) := by
  have hbad : bad_parent st.files (find_file st (split_path path).1) = false := by
    by_contra hb
    simp [fs_create_file, hb] at hfirst
  have htaken : name_taken st.files st.num_files (find_file st (split_path path).1)
      (split_path path).2 = false := by
    by_contra hb
    simp [fs_create_file, hbad, hb] at hfirst
  have hroom : ¬ st.num_files ≥ MAX_FILES := by
    intro hb
    simp [fs_create_file, hbad, htaken, hb] at hfirst
  have hst : fs_create_file st path content =
      (true, { st with
        files := set_file st.files st.num_files
          { name := strncpy31 (split_path path).2, is_dir := false,
            parent_dir := find_file st (split_path path).1,
            size := min (strlen content % U32) MAX_FILE_SIZE,
            data := memcpy (st.files st.num_files).data content
              (min (strlen content % U32) MAX_FILE_SIZE) },
        num_files := st.num_files + 1 }) := by
    unfold fs_create_file
    simp only [hbad, htaken, hroom, if_false, Bool.false_eq_true]
  rw [hst]
  have hne : find_file st (split_path path).1 ≠ -1 := by
    intro h
    simp [bad_parent, h] at hbad
  unfold fs_create_file
  simp only [find_file_extend st _ _ hne]
  by_cases hb : bad_parent (set_file st.files st.num_files
      { name := strncpy31 (split_path path).2, is_dir := false,
        parent_dir := find_file st (split_path path).1,
        size := min (strlen content % U32) MAX_FILE_SIZE,
        data := memcpy (st.files st.num_files).data content
          (min (strlen content % U32) MAX_FILE_SIZE) })
      (find_file st (split_path path).1) = true
  · simp only [hb, if_true]
  · simp only [hb, if_false, Bool.false_eq_true]
    rw [name_taken_last _ _ _ _ _ rfl
      (cstr_strncpy31 _ (split_path_leaf_ne_zero path) hleaf)]
    simp

theorem create_twice_rejected_witness :
    (fs_create_file fresh_state [47, 97] [104, 105]).1 = true ∧
    fs_create_file (fs_create_file fresh_state [47, 97] [104, 105]).2 [47, 97] [121]
      = (false, (fs_create_file fresh_state [47, 97] [104, 105]).2) :=
  ⟨by decide,
   create_twice_rejected fresh_state [47, 97] [104, 105] [121] (by decide) (by decide)⟩

/-! ## The header scan -/

theorem all_ok_drop (io : List Int) (h : all_ok io) (n : Nat) : all_ok (io.drop n) :=
  fun e he => h e (List.mem_of_mem_drop he)

theorem io_next_ok (st : FS) (h : all_ok st.io) :
    io_next st = (ESP_OK, { st with io := st.io.drop 1 }) := by
  obtain ⟨files, n, cd, cp, cs, ls, fl, io, now, hp, pp⟩ := st
  cases io with
  | nil => rfl
  | cons e rest =>
    have he : e = ESP_OK := h e (List.mem_cons_self _ _)
    subst he
    rfl

theorem esp_partition_read_ok (st : FS) (h : all_ok st.io) (off : Nat) :
    esp_partition_read st off
      = (ESP_OK, { st with io := st.io.drop 1 }, fun k => st.flash (off + k)) := by
  unfold esp_partition_read
  rw [io_next_ok st h]

theorem scan_step_ok (lt ls : Nat) (st : FS) (h : all_ok st.io) (i : Nat) :
    scan_step { latest_timestamp := lt, latest_sector := ls, st := st } i
      = { latest_timestamp := (select_step st.flash (lt, ls) i).1,
          latest_sector := (select_step st.flash (lt, ls) i).2,
          st := { st with io := st.io.drop 1 } } := by
  have e : (fun k => st.flash (i * SECTOR_SIZE + k)) = sector_bytes st.flash i := rfl
  unfold scan_step select_step
  simp only [esp_partition_read_ok st h, e]
  simp only [ne_eq, not_true_eq_false, if_false]
  split_ifs <;> rfl

theorem scan_sectors_ok (st : FS) (h : all_ok st.io) (n : Nat) :
    scan_sectors st n
      = { latest_timestamp := (select_latest st.flash n).1,
          latest_sector := (select_latest st.flash n).2,
          st := { st with io := st.io.drop n } } := by
  induction n with
  | zero => rfl
  | succ n ih =>
    unfold scan_sectors select_latest at ih ⊢
    rw [List.range_succ, List.foldl_append, List.foldl_append, ih]
    simp only [List.foldl_cons, List.foldl_nil]
    have hok : all_ok ({ st with io := st.io.drop n } : FS).io := all_ok_drop _ h n
    rw [scan_step_ok _ _ _ hok]
    simp only [List.drop_drop]

theorem select_latest_succ (flash : Nat → Nat) (n : Nat) :
    select_latest flash (n + 1) = select_step flash (select_latest flash n) n := by
  unfold select_latest
  rw [List.range_succ, List.foldl_append]
  rfl

/-- Before the winning sector is reached the running maximum stays below its
timestamp. -/
theorem select_latest_before (flash : Nat → Nat) (sel : Nat)
    (hpos : 0 < header_timestamp (sector_bytes flash sel))
    (hfirst : ∀ j, j < sel → magic_ok (sector_bytes flash j) = true →
      header_timestamp (sector_bytes flash j) < header_timestamp (sector_bytes flash sel)) :
    ∀ m, m ≤ sel → (select_latest flash m).1 < header_timestamp (sector_bytes flash sel) := by
  intro m
  induction m with
  | zero => intro _; exact hpos
  | succ m ih =>
    intro hm
    have ih2 := ih (Nat.le_of_succ_le hm)
    rw [select_latest_succ]
    unfold select_step
    split_ifs with h1 h2
    · exact ih2
    · exact hfirst m hm (by simpa using h1)
    · exact ih2

/-- The scan returns the lowest-indexed sector among the valid sectors that
carry the greatest timestamp, provided that timestamp is not zero. -/
theorem select_latest_eq (flash : Nat → Nat) (n sel : Nat) (hsel : sel < n)
    (hmagic : magic_ok (sector_bytes flash sel) = true)
    (hpos : 0 < header_timestamp (sector_bytes flash sel))
    (hmax : ∀ j, j < n → magic_ok (sector_bytes flash j) = true →
      header_timestamp (sector_bytes flash j) ≤ header_timestamp (sector_bytes flash sel))
    (hfirst : ∀ j, j < sel → magic_ok (sector_bytes flash j) = true →
      header_timestamp (sector_bytes flash j) < header_timestamp (sector_bytes flash sel)) :
    select_latest flash n = (header_timestamp (sector_bytes flash sel), sel) := by
  have hafter : ∀ m, sel < m → m ≤ n →
      select_latest flash m = (header_timestamp (sector_bytes flash sel), sel) := by
    intro m
    induction m with
    | zero => intro h; exact absurd h (Nat.not_lt_zero _)
    | succ m ih =>
      intro h1 h2
      rw [select_latest_succ]
      rcases Nat.lt_succ_iff_lt_or_eq.mp h1 with hlt | heq
      · rw [ih hlt (Nat.le_of_succ_le h2)]
        unfold select_step
        split_ifs with h3 h4
        · rfl
        · have := hmax m h2 (by simpa using h3)
          simp only at h4
          omega
        · rfl
      · subst heq
        have hb := select_latest_before flash sel hpos hfirst sel (Nat.le_refl _)
        unfold select_step
        rw [hmagic]
        simp only [Bool.true_eq_false, if_false]
        rw [if_pos hb]
  exact hafter n hsel (Nat.le_refl _)

/-! ## Recovery from the selected sector -/

/-- Closed form of `fs_read_from_flash` when the primitives succeed, the scan
selects sector `sel` and its header carries a record count that passes both
validations. -/
theorem read_selected (st : FS) (sel : Nat)
    (hio : all_ok st.io) (hheap : st.heap_ok = true)
    (hselect : select_latest st.flash NUM_SECTORS
      = (header_timestamp (sector_bytes st.flash sel), sel))
    (hpos : 0 < header_timestamp (sector_bytes st.flash sel))
    (hc1 : 1 ≤ header_count (sector_bytes st.flash sel))
    (hc2 : header_count (sector_bytes st.flash sel) ≤ MAX_FILES)
    (hc3 : files_size (header_count (sector_bytes st.flash sel)) ≤ SECTOR_SIZE - HEADER_SIZE) :
    fs_read_from_flash st
      = (ESP_OK,
         { st with
           io := st.io.drop (NUM_SECTORS + 1),
           num_files := header_count (sector_bytes st.flash sel),
           files := load_files st.files (sector_bytes st.flash sel)
             (header_count (sector_bytes st.flash sel)),
           current_sector := (sel + 1) % NUM_SECTORS }) := by
  have e : ∀ fl : Nat → Nat, (fun k => fl (sel * SECTOR_SIZE + k)) = sector_bytes fl sel :=
    fun _ => rfl
  have hok : all_ok ({ st with io := st.io.drop NUM_SECTORS } : FS).io :=
    all_ok_drop _ hio _
  unfold fs_read_from_flash
  rw [scan_sectors_ok st hio, hselect]
  dsimp only
  rw [if_neg (Nat.pos_iff_ne_zero.mp hpos),
    if_neg (show ¬ st.heap_ok = false by rw [hheap]; decide),
    esp_partition_read_ok _ hok]
  dsimp only
  rw [if_neg (by decide), e, if_neg (by omega), if_neg (by omega), List.drop_drop]


/-- C2 (as amended). When the read primitives succeed and some sector `sel` with
valid magic carries a non-zero timestamp that no valid sector exceeds and no
valid sector of lower index equals, the scan of `fs_read_from_flash` selects
`sel` with that timestamp, whatever its position and whatever the rest of its
header holds. If moreover the sector buffer is allocated, the record count in
that header is between 1 and `MAX_FILES` and its records fit the rest of the
sector, the call returns `ESP_OK`, loads exactly those records from sector
`sel` and sets the cursor to `(sel + 1) % NUM_SECTORS`. -/
theorem recovery_selects_latest (st : FS) (sel : Nat)
    (hio : all_ok st.io)
    (hsel : sel < NUM_SECTORS)
    (hmagic : magic_ok (sector_bytes st.flash sel) = true)
    (hpos : 0 < header_timestamp (sector_bytes st.flash sel))
    (hmax : ∀ j, j < NUM_SECTORS → magic_ok (sector_bytes st.flash j) = true →
      header_timestamp (sector_bytes st.flash j) ≤ header_timestamp (sector_bytes st.flash sel))
    (hfirst : ∀ j, j < sel → magic_ok (sector_bytes st.flash j) = true →
      header_timestamp (sector_bytes st.flash j) < header_timestamp (sector_bytes st.flash sel)) :
    (scan_sectors st NUM_SECTORS).latest_sector = sel ∧
    (scan_sectors st NUM_SECTORS).latest_timestamp
      = header_timestamp (sector_bytes st.flash sel) ∧
    (st.heap_ok = true →
      1 ≤ header_count (sector_bytes st.flash sel) →
      header_count (sector_bytes st.flash sel) ≤ MAX_FILES →
      files_size (header_count (sector_bytes st.flash sel)) ≤ SECTOR_SIZE - HEADER_SIZE →
      fs_read_from_flash st
        = (ESP_OK,
           { st with
             io := st.io.drop (NUM_SECTORS + 1),
             num_files := header_count (sector_bytes st.flash sel),
             files := load_files st.files (sector_bytes st.flash sel)
               (header_count (sector_bytes st.flash sel)),
             current_sector := (sel + 1) % NUM_SECTORS })) := by
  have hselect := select_latest_eq st.flash NUM_SECTORS sel hsel hmagic hpos hmax hfirst
  refine ⟨?_, ?_, ?_⟩
  · rw [scan_sectors_ok st hio, hselect]
  · rw [scan_sectors_ok st hio, hselect]
  · intro hheap hc1 hc2 hc3
    exact read_selected st sel hio hheap hselect hpos hc1 hc2 hc3

set_option maxRecDepth 100000 in
theorem recovery_selects_latest_witness :
    ((scan_sectors { boot_state with flash := flash_with_two 2 (small_header 5 1) 7 (small_header 9 2) }
        NUM_SECTORS).latest_sector = 7 ∧
      fs_read_from_flash
          { boot_state with flash := flash_with_two 2 (small_header 5 1) 7 (small_header 9 2) }
        = (ESP_OK,
           { boot_state with
             flash := flash_with_two 2 (small_header 5 1) 7 (small_header 9 2),
             io := ([] : List Int).drop (NUM_SECTORS + 1),
             num_files := header_count
               (sector_bytes (flash_with_two 2 (small_header 5 1) 7 (small_header 9 2)) 7),
             files := load_files boot_state.files
               (sector_bytes (flash_with_two 2 (small_header 5 1) 7 (small_header 9 2)) 7)
               (header_count
                 (sector_bytes (flash_with_two 2 (small_header 5 1) 7 (small_header 9 2)) 7)),
             current_sector := (7 + 1) % NUM_SECTORS })) ∧
    ((scan_sectors { boot_state with flash := flash_with_two 2 (small_header 9 2) 7 (small_header 5 1) }
        NUM_SECTORS).latest_sector = 2 ∧
      fs_read_from_flash
          { boot_state with flash := flash_with_two 2 (small_header 9 2) 7 (small_header 5 1) }
        = (ESP_OK,
           { boot_state with
             flash := flash_with_two 2 (small_header 9 2) 7 (small_header 5 1),
             io := ([] : List Int).drop (NUM_SECTORS + 1),
             num_files := header_count
               (sector_bytes (flash_with_two 2 (small_header 9 2) 7 (small_header 5 1)) 2),
             files := load_files boot_state.files
               (sector_bytes (flash_with_two 2 (small_header 9 2) 7 (small_header 5 1)) 2)
               (header_count
                 (sector_bytes (flash_with_two 2 (small_header 9 2) 7 (small_header 5 1)) 2)),
             current_sector := (2 + 1) % NUM_SECTORS })) ∧
    ((scan_sectors { boot_state with flash := flash_with 3 (small_header 9 0) }
        NUM_SECTORS).latest_sector = 3 ∧
      (scan_sectors { boot_state with flash := flash_with 3 (small_header 9 0) }
        NUM_SECTORS).latest_timestamp
        = header_timestamp (sector_bytes (flash_with 3 (small_header 9 0)) 3)) :=
  ⟨⟨(recovery_selects_latest
        { boot_state with flash := flash_with_two 2 (small_header 5 1) 7 (small_header 9 2) } 7
        (by decide) (by decide) (by decide) (by decide) (by decide) (by decide)).1,
    (recovery_selects_latest
        { boot_state with flash := flash_with_two 2 (small_header 5 1) 7 (small_header 9 2) } 7
        (by decide) (by decide) (by decide) (by decide) (by decide) (by decide)).2.2
      (by decide) (by decide) (by decide) (by decide)⟩,
   ⟨(recovery_selects_latest
        { boot_state with flash := flash_with_two 2 (small_header 9 2) 7 (small_header 5 1) } 2
        (by decide) (by decide) (by decide) (by decide) (by decide) (by decide)).1,
    (recovery_selects_latest
        { boot_state with flash := flash_with_two 2 (small_header 9 2) 7 (small_header 5 1) } 2
        (by decide) (by decide) (by decide) (by decide) (by decide) (by decide)).2.2
      (by decide) (by decide) (by decide) (by decide)⟩,
   ⟨(recovery_selects_latest
        { boot_state with flash := flash_with 3 (small_header 9 0) } 3
        (by decide) (by decide) (by decide) (by decide) (by decide) (by decide)).1,
    (recovery_selects_latest
        { boot_state with flash := flash_with 3 (small_header 9 0) } 3
        (by decide) (by decide) (by decide) (by decide) (by decide) (by decide)).2.1⟩⟩

set_option maxRecDepth 100000 in
/-- C2 (counterexample). Sector 3 is the only sector with valid magic and has
timestamp 9, but its header carries the record count 0: `fs_read_from_flash`
returns `ESP_ERR_INVALID_SIZE`, loads nothing and leaves the cursor at 0
instead of `(3 + 1) % NUM_SECTORS`. -/
theorem recovery_selected_not_loaded :
    magic_ok (sector_bytes (flash_with 3 (small_header 9 0)) 3) = true ∧
    (∀ j, j < NUM_SECTORS → j ≠ 3 →
      magic_ok (sector_bytes (flash_with 3 (small_header 9 0)) j) = false) ∧
    (fs_read_from_flash { boot_state with flash := flash_with 3 (small_header 9 0) }).1
      = ESP_ERR_INVALID_SIZE ∧
    (fs_read_from_flash { boot_state with flash := flash_with 3 (small_header 9 0) }).2.current_sector
      ≠ (3 + 1) % NUM_SECTORS := by
  refine ⟨by decide, by decide, by decide, by decide⟩

set_option maxRecDepth 100000 in
/-- C3 (the code at the failing input). A table of two records is written with
`fs_write_to_flash` while `esp_log_timestamp()` returns 0. Sector 0 then starts
with the magic and a header of count 2, yet `fs_read_from_flash` takes the
first-boot path: it returns `ESP_OK` with the root-only table and cursor 0. -/
theorem valid_magic_timestamp_zero_ignored :
    (fs_write_to_flash { (fs_create_file fresh_state [47, 97] [104, 105]).2 with now := 0 }).1
      = ESP_OK ∧
    magic_ok (sector_bytes
      (fs_write_to_flash { (fs_create_file fresh_state [47, 97] [104, 105]).2 with now := 0 }).2.flash
      0) = true ∧
    header_count (sector_bytes
      (fs_write_to_flash { (fs_create_file fresh_state [47, 97] [104, 105]).2 with now := 0 }).2.flash
      0) = 2 ∧
    (fs_read_from_flash
      (fs_write_to_flash { (fs_create_file fresh_state [47, 97] [104, 105]).2 with now := 0 }).2).1
      = ESP_OK ∧
    (fs_read_from_flash
      (fs_write_to_flash { (fs_create_file fresh_state [47, 97] [104, 105]).2 with now := 0 }).2).2.num_files
      = 1 ∧
    (fs_read_from_flash
      (fs_write_to_flash { (fs_create_file fresh_state [47, 97] [104, 105]).2 with now := 0 }).2).2.current_sector
      = 0 := by
  refine ⟨by decide, by decide, by decide, by decide, by decide, by decide⟩

/-! ## Initialisation on a corrupt snapshot -/

theorem same_but_io_refl (a : FS) : same_but_io a a := rfl

theorem same_but_io_trans {a b c : FS} (h1 : same_but_io a b) (h2 : same_but_io b c) :
    same_but_io a c := by
  unfold same_but_io at *
  rw [h2, h1]

theorem io_next_same (st : FS) : same_but_io st (io_next st).2 := by
  unfold io_next same_but_io
  cases st.io <;> rfl

theorem esp_partition_read_same (st : FS) (off : Nat) :
    same_but_io st (esp_partition_read st off).2.1 := io_next_same st

theorem scan_step_same (s : Scan) (i : Nat) : same_but_io s.st (scan_step s i).st := by
  have h := esp_partition_read_same s.st (i * SECTOR_SIZE)
  unfold scan_step
  dsimp only
  split_ifs <;> exact h

theorem scan_sectors_same (st : FS) (n : Nat) : same_but_io st (scan_sectors st n).st := by
  induction n with
  | zero => exact same_but_io_refl st
  | succ n ih =>
    unfold scan_sectors at ih ⊢
    rw [List.range_succ, List.foldl_append]
    exact same_but_io_trans ih (scan_step_same _ n)

/-- A recovery that returns `ESP_ERR_INVALID_SIZE` has touched neither the
records, nor the flash, nor the cursor. -/
theorem read_corrupt_frame (st : FS) (h : (fs_read_from_flash st).1 = ESP_ERR_INVALID_SIZE) :
    (fs_read_from_flash st).2.files = st.files ∧
    (fs_read_from_flash st).2.flash = st.flash ∧
    (fs_read_from_flash st).2.current_sector = st.current_sector := by
  have hs := scan_sectors_same st NUM_SECTORS
  have hr := esp_partition_read_same (scan_sectors st NUM_SECTORS).st
    ((scan_sectors st NUM_SECTORS).latest_sector * SECTOR_SIZE)
  have hsr := same_but_io_trans hs hr
  unfold same_but_io at hs hsr
  unfold fs_read_from_flash at h ⊢
  dsimp only at h ⊢
  split_ifs at h ⊢
  · exact absurd (show ESP_OK = ESP_ERR_INVALID_SIZE from h) (by decide)
  · exact absurd (show ESP_ERR_NO_MEM = ESP_ERR_INVALID_SIZE from h) (by decide)
  · rw [hsr]; exact ⟨rfl, rfl, rfl⟩
  · dsimp only; rw [hsr]; exact ⟨rfl, rfl, rfl⟩
  · dsimp only; rw [hsr]; exact ⟨rfl, rfl, rfl⟩
  · exact absurd (show ESP_OK = ESP_ERR_INVALID_SIZE from h) (by decide)

/-- C4 (as amended). When storage initialisation succeeds and recovery fails
with `ESP_ERR_INVALID_SIZE`, `fs_init` does not format: it returns that error
with the state recovery left, in which the records array, the flash and the
write cursor are what they were before recovery. -/
theorem init_returns_corrupt (st : FS)
    (hstorage : (fs_init_storage st).1 = ESP_OK)
    (hcorrupt : (fs_read_from_flash (fs_init_storage st).2).1 = ESP_ERR_INVALID_SIZE) :
    fs_init st = (ESP_ERR_INVALID_SIZE, (fs_read_from_flash (fs_init_storage st).2).2) ∧
    (fs_init st).2.files = (fs_init_storage st).2.files ∧
    (fs_init st).2.flash = (fs_init_storage st).2.flash ∧
    (fs_init st).2.current_sector = (fs_init_storage st).2.current_sector := by
  have hinit : fs_init st
      = (ESP_ERR_INVALID_SIZE, (fs_read_from_flash (fs_init_storage st).2).2) := by
    unfold fs_init
    dsimp only
    rw [if_neg (by rw [hstorage]; decide), hcorrupt, if_neg (by decide), if_pos (by decide)]
    rw [← hcorrupt]
  have hsnd := congrArg Prod.snd hinit
  dsimp only at hsnd
  have hf := read_corrupt_frame (fs_init_storage st).2 hcorrupt
  exact ⟨hinit, (congrArg FS.files hsnd).trans hf.1, (congrArg FS.flash hsnd).trans hf.2.1,
    (congrArg FS.current_sector hsnd).trans hf.2.2⟩

set_option maxRecDepth 100000 in
theorem init_returns_corrupt_witness :
    (fs_read_from_flash
      (fs_init_storage { boot_state with flash := flash_with 0 (small_header 1 200) }).2).1
      = ESP_ERR_INVALID_SIZE ∧
    (fs_init { boot_state with flash := flash_with 0 (small_header 1 200) }
        = (ESP_ERR_INVALID_SIZE,
           (fs_read_from_flash
             (fs_init_storage { boot_state with flash := flash_with 0 (small_header 1 200) }).2).2) ∧
      (fs_init { boot_state with flash := flash_with 0 (small_header 1 200) }).2.files
        = (fs_init_storage { boot_state with flash := flash_with 0 (small_header 1 200) }).2.files ∧
      (fs_init { boot_state with flash := flash_with 0 (small_header 1 200) }).2.flash
        = (fs_init_storage { boot_state with flash := flash_with 0 (small_header 1 200) }).2.flash ∧
      (fs_init { boot_state with flash := flash_with 0 (small_header 1 200) }).2.current_sector
        = (fs_init_storage
            { boot_state with flash := flash_with 0 (small_header 1 200) }).2.current_sector) :=
  ⟨by decide,
   init_returns_corrupt { boot_state with flash := flash_with 0 (small_header 1 200) }
     (by decide) (by decide)⟩

set_option maxRecDepth 100000 in
/-- C4 (counterexample). Sector 0 holds a header with valid magic, timestamp 1
and record count 0. Recovery rejects the count; `fs_init` returns
`ESP_ERR_INVALID_SIZE` without formatting, and the table is not the root-only
table: `num_files` is left at the rejected value 0. -/
theorem init_corrupt_not_formatted :
    (fs_read_from_flash
      (fs_init_storage { boot_state with flash := flash_with 0 (small_header 1 0) }).2).1
      = ESP_ERR_INVALID_SIZE ∧
    (fs_init { boot_state with flash := flash_with 0 (small_header 1 0) }).1
      = ESP_ERR_INVALID_SIZE ∧
    (fs_init { boot_state with flash := flash_with 0 (small_header 1 0) }).2.num_files = 0 ∧
    ¬ ((fs_init { boot_state with flash := flash_with 0 (small_header 1 0) }).2.num_files = 1) := by
  refine ⟨by decide, by decide, by decide, by decide⟩

/-! ## The flash writer leaves the table alone -/

theorem same_table_refl (a : FS) : same_table a a := ⟨rfl, rfl, rfl⟩

theorem same_table_trans {a b c : FS} (h1 : same_table a b) (h2 : same_table b c) :
    same_table a c :=
  ⟨h2.1.trans h1.1, h2.2.1.trans h1.2.1, h2.2.2.trans h1.2.2⟩

theorem io_next_table (st : FS) : same_table st (io_next st).2 := by
  unfold io_next
  cases st.io <;> exact ⟨rfl, rfl, rfl⟩

theorem erase_table (st : FS) (off size : Nat) :
    same_table st (esp_partition_erase_range st off size).2 := by
  have h := io_next_table st
  unfold esp_partition_erase_range
  dsimp only
  split_ifs
  · exact h
  · exact h

theorem write_table (st : FS) (off : Nat) (buf : Nat → Nat) (size : Nat) :
    same_table st (esp_partition_write st off buf size).2 := by
  have h := io_next_table st
  unfold esp_partition_write
  dsimp only
  split_ifs
  · exact h
  · exact h

theorem write_sectors_table (total timestamp : Nat) :
    ∀ (remaining i : Nat) (st : FS),
      same_table st (write_sectors total timestamp remaining i st).2 := by
  intro remaining
  induction remaining with
  | zero => intro i st; exact same_table_refl st
  | succ r ih =>
    intro i st
    have he := erase_table st ((st.current_sector + i) % NUM_SECTORS * SECTOR_SIZE) SECTOR_SIZE
    unfold write_sectors
    dsimp only
    split_ifs <;>
      first
      | exact he
      | exact same_table_trans he (write_table _ _ _ _)
      | exact same_table_trans he (same_table_trans (write_table _ _ _ _) (ih _ _))

theorem fs_write_to_flash_table (st : FS) : same_table st (fs_write_to_flash st).2 := by
  have h := write_sectors_table (total_size st.num_files) (esp_log_timestamp st)
    (sectors_needed st.num_files) 0 st
  unfold fs_write_to_flash
  dsimp only
  split_ifs
  · exact same_table_refl st
  · exact h
  · exact h

theorem fs_periodic_save_table (st : FS) : same_table st (fs_periodic_save st) := by
  have h := fs_write_to_flash_table st
  unfold fs_periodic_save
  dsimp only
  split_ifs
  · exact h
  · exact same_table_refl st

/-! ## Invariants of built tables -/

theorem find_child_lt (files : Nat → File) (n : Nat) (cur : Int) (tok : List Nat) (i : Nat)
    (h : find_child files n cur tok = some i) : i < n := by
  unfold find_child at h
  exact List.mem_range.mp (List.mem_of_find?_eq_some h)

theorem find_walk_range (files : Nat → File) (n : Nat) (hn : n ≤ MAX_FILES)
    (toks : List (List Nat)) :
    ∀ cur : Int, -2147483648 ≤ cur → cur < 2147483648 →
      -2147483648 ≤ find_walk files n toks cur ∧ find_walk files n toks cur < 2147483648 := by
  induction toks with
  | nil => intro cur h1 h2; exact ⟨h1, h2⟩
  | cons tok toks ih =>
    intro cur h1 h2
    cases hfc : find_child files n cur tok with
    | none =>
      simp only [find_walk, hfc]
      exact ⟨by decide, by decide⟩
    | some i =>
      have hi := find_child_lt files n cur tok i hfc
      simp only [find_walk, hfc]
      simp only [MAX_FILES] at hn
      exact ih (i : Int) (by omega) (by omega)

theorem find_file_range (st : FS) (path : List Nat) (hn : st.num_files ≤ MAX_FILES)
    (hdir : -2147483648 ≤ st.current_dir ∧ st.current_dir < 2147483648) :
    -2147483648 ≤ find_file st path ∧ find_file st path < 2147483648 := by
  unfold find_file
  apply find_walk_range st.files st.num_files hn
  · split_ifs
    · decide
    · exact hdir.1
  · split_ifs
    · decide
    · exact hdir.2

theorem strncpy31_length (s : List Nat) : (strncpy31 s).length = 32 := by
  unfold strncpy31
  have : (s.take 31).length ≤ 31 := by simp [List.length_take]
  simp only [List.length_append, List.length_replicate]
  omega

theorem strlen_le_length (s : List Nat) : strlen s ≤ s.length := by
  unfold strlen cstr
  exact (List.takeWhile_sublist _).length_le

theorem memcpy_length (dst src : List Nat) (n : Nat) (h1 : n ≤ src.length) (h2 : n ≤ dst.length) :
    (memcpy dst src n).length = dst.length := by
  unfold memcpy
  simp only [List.length_append, List.length_take, List.length_drop]
  omega

theorem set_file_wf (files : Nat → File) (n : Nat) (r : File) (hfiles : ∀ i, (files i).wf)
    (hr : r.wf) : ∀ i, (set_file files n r i).wf := by
  intro i
  unfold set_file
  split_ifs
  · exact hr
  · exact hfiles i

theorem root_table_wf : ∀ i, (root_table i).wf := by
  apply set_file_wf
  · intro i
    exact ⟨List.length_replicate _ _, List.length_replicate _ _, by decide, by decide, by decide⟩
  · refine ⟨?_, List.length_replicate _ _, by decide, by decide, by decide⟩
    show (SLASH :: List.replicate 31 0).length = 32
    rw [List.length_cons, List.length_replicate]

/-- A built table has between 1 and `MAX_FILES` records, all occupying their C
types, and the current directory is a C `int`. -/
theorem built_invariant (st : FS) (h : Built st) :
    (∀ i, (st.files i).wf) ∧ 1 ≤ st.num_files ∧ st.num_files ≤ MAX_FILES ∧
    (-2147483648 ≤ st.current_dir ∧ st.current_dir < 2147483648) := by
  induction h with
  | root st hfiles hcount hdir =>
    refine ⟨?_, ?_, ?_, hdir⟩
    · rw [hfiles]; exact root_table_wf
    · omega
    · rw [hcount]; decide
  | create st path content _ hok ih =>
    obtain ⟨hwf, h1, h64, hdir⟩ := ih
    have hp := find_file_range st (split_path path).1 h64 hdir
    unfold fs_create_file at hok ⊢
    dsimp only at hok ⊢
    split_ifs at hok ⊢ with hb ht hfull
    dsimp only
    refine ⟨?_, by omega, ?_, hdir⟩
    · apply set_file_wf _ _ _ hwf
      have hsz : min (strlen content % U32) MAX_FILE_SIZE ≤ content.length := by
        have := strlen_le_length content
        have : strlen content % U32 ≤ strlen content := Nat.mod_le _ _
        have := Nat.min_le_left (strlen content % U32) MAX_FILE_SIZE
        omega
      have hsz2 : min (strlen content % U32) MAX_FILE_SIZE ≤ 1024 := Nat.min_le_right _ _
      refine ⟨strncpy31_length _, ?_, ?_, hp.1, hp.2⟩
      · dsimp only
        rw [memcpy_length _ _ _ hsz (by rw [(hwf st.num_files).2.1]; exact hsz2)]
        exact (hwf st.num_files).2.1
      · dsimp only
        unfold U32
        omega
    · simp only [MAX_FILES] at hfull ⊢
      omega
  | mkdir st path _ hok ih =>
    obtain ⟨hwf, h1, h64, hdir⟩ := ih
    unfold fs_make_dir at hok ⊢
    dsimp only at hok ⊢
    split_ifs at hok ⊢ with hfull
    cases hmp : mkdir_full_path st path with
    | none => rw [hmp] at hok; simp at hok
    | some full =>
      rw [hmp] at hok
      dsimp only at hok ⊢
      have hp := find_file_range st (split_path full).1 h64 hdir
      split_ifs at hok ⊢ with hb ht
      dsimp only
      obtain ⟨e1, e2, e3⟩ := fs_periodic_save_table
        { st with
          files := set_file st.files st.num_files
            { st.files st.num_files with
              name := strncpy31 (split_path full).2, is_dir := true,
              parent_dir := find_file st (split_path full).1, size := 0 },
          num_files := st.num_files + 1 }
      rw [e1, e2, e3]
      dsimp only
      refine ⟨?_, by omega, ?_, hdir⟩
      · apply set_file_wf _ _ _ hwf
        refine ⟨strncpy31_length _, (hwf st.num_files).2.1, ?_, hp.1, hp.2⟩
        dsimp only
        unfold U32
        omega
      · simp only [MAX_FILES] at hfull ⊢
        omega

/-! ## Record images decode to the record -/

theorem le32_le32_byte (v : Nat) (h : v < U32) :
    le32 (le32_byte v 0) (le32_byte v 1) (le32_byte v 2) (le32_byte v 3) = v := by
  unfold le32 le32_byte
  unfold U32 at h
  norm_num
  omega

theorem int_to_u32_lt (x : Int) : int_to_u32 x < U32 := by
  unfold int_to_u32 U32
  omega

theorem u32_to_int_to_u32 (x : Int) (h1 : -2147483648 ≤ x) (h2 : x < 2147483648) :
    u32_to_int (int_to_u32 x) = x := by
  unfold u32_to_int int_to_u32 U32
  split_ifs <;> omega

theorem range_map_getD (l : List Nat) (n : Nat) (h : l.length = n) :
    (List.range n).map (fun i => l.getD i 0) = l := by
  apply List.ext_getElem
  · simp [h]
  · intro i h1 h2
    simp [List.getD_eq_getElem?_getD, List.getElem?_eq_getElem h2]

theorem ofBytes_congr (b c : Nat → Nat) (h : ∀ o, o < SIZEOF_FILE → b o = c o) :
    File.ofBytes b = File.ofBytes c := by
  unfold SIZEOF_FILE at h
  unfold File.ofBytes
  have hname : (List.range 32).map b = (List.range 32).map c := by
    apply List.map_congr_left
    intro i hi
    have := List.mem_range.mp hi
    exact h i (by omega)
  have hdata : (List.range 1024).map (fun j => b (32 + j))
      = (List.range 1024).map (fun j => c (32 + j)) := by
    apply List.map_congr_left
    intro i hi
    have := List.mem_range.mp hi
    exact h (32 + i) (by omega)
  rw [hname, hdata, h 1056 (by decide), h 1057 (by decide), h 1058 (by decide),
    h 1059 (by decide), h 1060 (by decide), h 1064 (by decide), h 1065 (by decide),
    h 1066 (by decide), h 1067 (by decide)]

theorem ofBytes_byte (f : File) (hw : f.wf) : File.ofBytes f.byte = f := by
  obtain ⟨hn, hd, hs, hp1, hp2⟩ := hw
  have hname : (List.range 32).map f.byte = f.name := by
    rw [← range_map_getD f.name 32 hn]
    apply List.map_congr_left
    intro i hi
    have := List.mem_range.mp hi
    unfold File.byte
    rw [if_pos this]
  have hdata : (List.range 1024).map (fun j => f.byte (32 + j)) = f.data := by
    rw [← range_map_getD f.data 1024 hd]
    apply List.map_congr_left
    intro i hi
    have := List.mem_range.mp hi
    unfold File.byte
    rw [if_neg (by omega), if_pos (by omega), Nat.add_sub_cancel_left]
  have b1056 : f.byte 1056 = le32_byte f.size 0 := rfl
  have b1057 : f.byte 1057 = le32_byte f.size 1 := rfl
  have b1058 : f.byte 1058 = le32_byte f.size 2 := rfl
  have b1059 : f.byte 1059 = le32_byte f.size 3 := rfl
  have b1060 : f.byte 1060 = if f.is_dir then 1 else 0 := rfl
  have b1064 : f.byte 1064 = le32_byte (int_to_u32 f.parent_dir) 0 := rfl
  have b1065 : f.byte 1065 = le32_byte (int_to_u32 f.parent_dir) 1 := rfl
  have b1066 : f.byte 1066 = le32_byte (int_to_u32 f.parent_dir) 2 := rfl
  have b1067 : f.byte 1067 = le32_byte (int_to_u32 f.parent_dir) 3 := rfl
  have hdir : decide ((if f.is_dir then 1 else 0) % 256 ≠ 0) = f.is_dir := by
    cases f.is_dir <;> rfl
  unfold File.ofBytes
  rw [hname, hdata, b1056, b1057, b1058, b1059, b1060, b1064, b1065, b1066, b1067,
    le32_le32_byte _ hs, le32_le32_byte _ (int_to_u32_lt _), u32_to_int_to_u32 _ hp1 hp2, hdir]

/-! ## Writing a one-sector snapshot -/

theorem erase_ok (st : FS) (h : all_ok st.io) (off size : Nat) :
    esp_partition_erase_range st off size
      = (ESP_OK, { st with io := st.io.drop 1,
                           flash := fun a => if off ≤ a ∧ a < off + size then 255 else st.flash a }) := by
  unfold esp_partition_erase_range
  rw [io_next_ok st h]
  dsimp only
  rw [if_neg (by decide)]

theorem write_ok (st : FS) (h : all_ok st.io) (off : Nat) (buf : Nat → Nat) (size : Nat) :
    esp_partition_write st off buf size
      = (ESP_OK, { st with io := st.io.drop 1,
                           flash := fun a => if off ≤ a ∧ a < off + size then buf (a - off)
                                             else st.flash a }) := by
  unfold esp_partition_write
  rw [io_next_ok st h]
  dsimp only
  rw [if_neg (by decide)]

theorem write_sectors_one (st : FS) (hio : all_ok st.io) (hheap : st.heap_ok = true)
    (total timestamp : Nat) :
    write_sectors total timestamp 1 0 st
      = (ESP_OK, { st with io := st.io.drop 2,
                           flash := fun a =>
                             if (st.current_sector + 0) % NUM_SECTORS * SECTOR_SIZE ≤ a ∧
                                 a < (st.current_sector + 0) % NUM_SECTORS * SECTOR_SIZE + SECTOR_SIZE then
                               first_buffer st.files st.num_files timestamp
                                 (a - (st.current_sector + 0) % NUM_SECTORS * SECTOR_SIZE)
                             else st.flash a }) := by
  have hok : all_ok ({ st with
      io := st.io.drop 1,
      flash := fun a => if (st.current_sector + 0) % NUM_SECTORS * SECTOR_SIZE ≤ a ∧
        a < (st.current_sector + 0) % NUM_SECTORS * SECTOR_SIZE + SECTOR_SIZE then 255
        else st.flash a } : FS).io := all_ok_drop _ hio 1
  rw [write_sectors]
  dsimp only
  rw [erase_ok st hio]
  dsimp only
  rw [if_neg (by decide), if_neg (by rw [hheap]; decide), write_ok _ hok]
  dsimp only
  rw [if_neg (by decide), write_sectors, List.drop_drop]
  simp only [if_true]
  congr 2
  funext a
  split_ifs <;> rfl

theorem fs_write_to_flash_one (st : FS) (hio : all_ok st.io) (hheap : st.heap_ok = true)
    (hneeded : sectors_needed st.num_files = 1) :
    fs_write_to_flash st
      = (ESP_OK, { st with io := st.io.drop 2, flash := snapshot_flash st,
                           current_sector := (st.current_sector + 1) % NUM_SECTORS }) := by
  unfold fs_write_to_flash
  dsimp only
  rw [hneeded, if_neg (by decide), write_sectors_one st hio hheap]
  dsimp only
  rw [if_neg (by decide)]
  rfl

/-! ## Reading back a one-sector snapshot -/

theorem fit_one_sector (n : Nat) (h1 : 1 ≤ n) (h64 : n ≤ MAX_FILES)
    (hfit : total_size n ≤ SECTOR_SIZE) :
    n ≤ 3 ∧ sectors_needed n = 1 ∧ files_size n = SIZEOF_FILE * n := by
  unfold MAX_FILES at h64
  have e1 : files_size n = SIZEOF_FILE * n := by
    unfold files_size SIZEOF_FILE U32
    exact Nat.mod_eq_of_lt (by omega)
  have e2 : total_size n = 12 + 1068 * n := by
    unfold total_size
    rw [e1]
    unfold HEADER_SIZE SIZEOF_FILE U32
    exact Nat.mod_eq_of_lt (by omega)
  rw [e2] at hfit
  unfold SECTOR_SIZE at hfit
  refine ⟨by omega, ?_, e1⟩
  unfold sectors_needed
  rw [e2]
  unfold SECTOR_SIZE U32
  have e3 : (12 + 1068 * n + 4096 - 1) % 4294967296 = 12 + 1068 * n + 4096 - 1 :=
    Nat.mod_eq_of_lt (by omega)
  rw [e3]
  omega

theorem snapshot_sector (st : FS) (k : Nat) (hk : k < SECTOR_SIZE) :
    sector_bytes (snapshot_flash st) ((st.current_sector + 0) % NUM_SECTORS) k
      = first_buffer st.files st.num_files (esp_log_timestamp st) k := by
  unfold sector_bytes snapshot_flash
  rw [if_pos ⟨Nat.le_add_right _ _, Nat.add_lt_add_left hk _⟩, Nat.add_sub_cancel_left]

theorem snapshot_other (st : FS) (j k : Nat) (hj : j ≠ (st.current_sector + 0) % NUM_SECTORS)
    (hk : k < SECTOR_SIZE) :
    sector_bytes (snapshot_flash st) j k = sector_bytes st.flash j k := by
  unfold sector_bytes snapshot_flash
  rw [if_neg]
  unfold SECTOR_SIZE at hk ⊢
  omega

theorem snapshot_magic (st : FS) :
    magic_ok (sector_bytes (snapshot_flash st) ((st.current_sector + 0) % NUM_SECTORS)) = true := by
  unfold magic_ok
  rw [snapshot_sector st 0 (by decide), snapshot_sector st 1 (by decide),
    snapshot_sector st 2 (by decide), snapshot_sector st 3 (by decide)]
  rfl

theorem snapshot_timestamp (st : FS) :
    header_timestamp (sector_bytes (snapshot_flash st) ((st.current_sector + 0) % NUM_SECTORS))
      = esp_log_timestamp st := by
  have hlt : esp_log_timestamp st < U32 := Nat.mod_lt _ (by decide)
  unfold header_timestamp
  rw [snapshot_sector st 4 (by decide), snapshot_sector st 5 (by decide),
    snapshot_sector st 6 (by decide), snapshot_sector st 7 (by decide)]
  exact le32_le32_byte _ hlt

theorem snapshot_count (st : FS) (h : st.num_files < U32) :
    header_count (sector_bytes (snapshot_flash st) ((st.current_sector + 0) % NUM_SECTORS))
      = st.num_files := by
  unfold header_count
  rw [snapshot_sector st 8 (by decide), snapshot_sector st 9 (by decide),
    snapshot_sector st 10 (by decide), snapshot_sector st 11 (by decide)]
  exact le32_le32_byte _ h

theorem snapshot_other_magic (st : FS) (j : Nat)
    (hj : j ≠ (st.current_sector + 0) % NUM_SECTORS) :
    magic_ok (sector_bytes (snapshot_flash st) j) = magic_ok (sector_bytes st.flash j) := by
  unfold magic_ok
  rw [snapshot_other st j 0 hj (by decide), snapshot_other st j 1 hj (by decide),
    snapshot_other st j 2 hj (by decide), snapshot_other st j 3 hj (by decide)]

theorem snapshot_other_timestamp (st : FS) (j : Nat)
    (hj : j ≠ (st.current_sector + 0) % NUM_SECTORS) :
    header_timestamp (sector_bytes (snapshot_flash st) j)
      = header_timestamp (sector_bytes st.flash j) := by
  unfold header_timestamp
  rw [snapshot_other st j 4 hj (by decide), snapshot_other st j 5 hj (by decide),
    snapshot_other st j 6 hj (by decide), snapshot_other st j 7 hj (by decide)]

/-- The bytes of record `i` in a one-sector snapshot are the image of `files[i]`. -/
theorem snapshot_record (st : FS) (i o : Nat) (hn : st.num_files ≤ 3) (hi : i < st.num_files)
    (ho : o < SIZEOF_FILE) (hsize : files_size st.num_files = SIZEOF_FILE * st.num_files) :
    sector_bytes (snapshot_flash st) ((st.current_sector + 0) % NUM_SECTORS)
        (HEADER_SIZE + SIZEOF_FILE * i + o)
      = (st.files i).byte o := by
  have hk : HEADER_SIZE + SIZEOF_FILE * i + o < SECTOR_SIZE := by
    unfold HEADER_SIZE SIZEOF_FILE SECTOR_SIZE
    unfold SIZEOF_FILE at ho
    omega
  rw [snapshot_sector st _ hk]
  unfold first_buffer
  rw [hsize]
  unfold HEADER_SIZE SIZEOF_FILE SECTOR_SIZE at *
  rw [if_neg (by omega), if_neg (by omega), if_neg (by omega), if_pos (by omega)]
  unfold files_bytes SIZEOF_FILE
  have h1 : (12 + 1068 * i + o - 12) / 1068 = i := by omega
  have h2 : (12 + 1068 * i + o - 12) % 1068 = o := by omega
  rw [h1, h2]

/-- Closed form of recovery from a flash that holds a one-sector snapshot of
`st` at the cursor of `st`, when that snapshot is the one the scan selects. -/
theorem snapshot_read_back (st st2 : FS)
    (hwf : ∀ i, i < st.num_files → (st.files i).wf)
    (h1 : 1 ≤ st.num_files) (h64 : st.num_files ≤ MAX_FILES)
    (hfit : total_size st.num_files ≤ SECTOR_SIZE)
    (hnow : 0 < esp_log_timestamp st)
    (hbelow : ∀ j, j < (st.current_sector + 0) % NUM_SECTORS →
      magic_ok (sector_bytes st.flash j) = true →
      header_timestamp (sector_bytes st.flash j) < esp_log_timestamp st)
    (habove : ∀ j, j < NUM_SECTORS → (st.current_sector + 0) % NUM_SECTORS < j →
      magic_ok (sector_bytes st.flash j) = true →
      header_timestamp (sector_bytes st.flash j) ≤ esp_log_timestamp st)
    (hflash : st2.flash = snapshot_flash st)
    (hio2 : all_ok st2.io) (hheap2 : st2.heap_ok = true) :
    fs_read_from_flash st2
      = (ESP_OK,
         { st2 with
           io := st2.io.drop (NUM_SECTORS + 1),
           num_files := st.num_files,
           files := fun i => if i < st.num_files then st.files i else st2.files i,
           current_sector := ((st.current_sector + 0) % NUM_SECTORS + 1) % NUM_SECTORS }) := by
  obtain ⟨h3, _, hsize⟩ := fit_one_sector st.num_files h1 h64 hfit
  have hu32 : st.num_files < U32 := by unfold U32; unfold MAX_FILES at h64; omega
  have hc : (st.current_sector + 0) % NUM_SECTORS < NUM_SECTORS := Nat.mod_lt _ (by decide)
  have hmagic := snapshot_magic st
  have hts := snapshot_timestamp st
  have hcount := snapshot_count st hu32
  have hselect : select_latest st2.flash NUM_SECTORS
      = (header_timestamp (sector_bytes st2.flash ((st.current_sector + 0) % NUM_SECTORS)),
         (st.current_sector + 0) % NUM_SECTORS) := by
    rw [hflash]
    apply select_latest_eq _ _ _ hc hmagic
    · rw [hts]; exact hnow
    · intro j hj hm
      rw [hts]
      by_cases hjc : j = (st.current_sector + 0) % NUM_SECTORS
      · rw [hjc, hts]
      · rw [snapshot_other_magic st j hjc] at hm
        rw [snapshot_other_timestamp st j hjc]
        rcases Nat.lt_or_gt_of_ne hjc with hlt | hgt
        · exact Nat.le_of_lt (hbelow j hlt hm)
        · exact habove j hj hgt hm
    · intro j hj hm
      have hjc : j ≠ (st.current_sector + 0) % NUM_SECTORS := Nat.ne_of_lt hj
      rw [snapshot_other_magic st j hjc] at hm
      rw [hts, snapshot_other_timestamp st j hjc]
      exact hbelow j hj hm
  have hread := read_selected st2 ((st.current_sector + 0) % NUM_SECTORS) hio2 hheap2 hselect
    (by rw [hflash, hts]; exact hnow)
    (by rw [hflash, hcount]; exact h1)
    (by rw [hflash, hcount]; exact h64)
    (by rw [hflash, hcount, hsize]
        unfold SIZEOF_FILE SECTOR_SIZE HEADER_SIZE
        omega)
  have hfiles : load_files st2.files
      (sector_bytes (snapshot_flash st) ((st.current_sector + 0) % NUM_SECTORS)) st.num_files
      = fun i => if i < st.num_files then st.files i else st2.files i := by
    funext i
    unfold load_files
    by_cases hi : i < st.num_files
    · rw [if_pos hi, if_pos hi,
        ofBytes_congr _ (st.files i).byte (fun o ho => snapshot_record st i o h3 hi ho hsize)]
      exact ofBytes_byte _ (hwf i hi)
    · rw [if_neg hi, if_neg hi]
  rw [hread, hflash, hcount, hfiles]

/-- Round trip when the written snapshot is the one the scan selects. Let the
table be built from the fresh root-only table by successful `fs_create_file` /
`fs_make_dir` calls and fit one sector. If the primitives succeed, the
timestamp of the write is not zero, no valid header in a sector below the
cursor carries that timestamp or a greater one and no valid header in a sector
above it carries a greater one, then `fs_write_to_flash` succeeds and
`fs_read_from_flash`, run from any in-memory state on the resulting flash,
succeeds and yields the same record count and the same records in the same
order. The two conditions on the other headers are extra: they do not follow
from the table being built and fitting one sector. -/
theorem snapshot_round_trip (st st2 : FS)
    (hbuilt : Built st) (hfit : total_size st.num_files ≤ SECTOR_SIZE)
    (hio : all_ok st.io) (hheap : st.heap_ok = true)
    (hnow : 0 < esp_log_timestamp st)
    (hbelow : ∀ j, j < (st.current_sector + 0) % NUM_SECTORS →
      magic_ok (sector_bytes st.flash j) = true →
      header_timestamp (sector_bytes st.flash j) < esp_log_timestamp st)
    (habove : ∀ j, j < NUM_SECTORS → (st.current_sector + 0) % NUM_SECTORS < j →
      magic_ok (sector_bytes st.flash j) = true →
      header_timestamp (sector_bytes st.flash j) ≤ esp_log_timestamp st)
    (hflash : st2.flash = (fs_write_to_flash st).2.flash)
    (hio2 : all_ok st2.io) (hheap2 : st2.heap_ok = true) :
    (fs_write_to_flash st).1 = ESP_OK ∧
    (fs_read_from_flash st2).1 = ESP_OK ∧
    (fs_read_from_flash st2).2.num_files = st.num_files ∧
    ∀ i, i < st.num_files → (fs_read_from_flash st2).2.files i = st.files i := by
  obtain ⟨hwf, h1, h64, _⟩ := built_invariant st hbuilt
  obtain ⟨_, hneeded, _⟩ := fit_one_sector st.num_files h1 h64 hfit
  have hwrite := fs_write_to_flash_one st hio hheap hneeded
  have hread := snapshot_read_back st st2 (fun i _ => hwf i) h1 h64 hfit hnow hbelow habove
    (by rw [hflash, hwrite]) hio2 hheap2
  refine ⟨by rw [hwrite], by rw [hread], by rw [hread], ?_⟩
  intro i hi
  rw [hread]
  dsimp only
  rw [if_pos hi]

set_option maxRecDepth 100000 in
theorem snapshot_round_trip_witness :
    total_size (fs_create_file fresh_state [47, 97] [104, 105]).2.num_files ≤ SECTOR_SIZE ∧
    ((fs_write_to_flash (fs_create_file fresh_state [47, 97] [104, 105]).2).1 = ESP_OK ∧
     (fs_read_from_flash
        { boot_state with
          flash := (fs_write_to_flash (fs_create_file fresh_state [47, 97] [104, 105]).2).2.flash }).1
        = ESP_OK ∧
     (fs_read_from_flash
        { boot_state with
          flash := (fs_write_to_flash
            (fs_create_file fresh_state [47, 97] [104, 105]).2).2.flash }).2.num_files
        = (fs_create_file fresh_state [47, 97] [104, 105]).2.num_files ∧
     ∀ i, i < (fs_create_file fresh_state [47, 97] [104, 105]).2.num_files →
       (fs_read_from_flash
          { boot_state with
            flash := (fs_write_to_flash
              (fs_create_file fresh_state [47, 97] [104, 105]).2).2.flash }).2.files i
         = (fs_create_file fresh_state [47, 97] [104, 105]).2.files i) :=
  ⟨by decide,
   snapshot_round_trip (fs_create_file fresh_state [47, 97] [104, 105]).2
     { boot_state with
       flash := (fs_write_to_flash (fs_create_file fresh_state [47, 97] [104, 105]).2).2.flash }
     (Built.create fresh_state [47, 97] [104, 105]
       (Built.root fresh_state rfl rfl (by decide)) (by decide))
     (by decide) (by decide) (by decide) (by decide) (by decide) (by decide) rfl
     (by decide) (by decide)⟩

/-! ## Table invariants at concrete operation sequences -/

/-- C11 (the code at the failing input). Starting from the fresh table, `mkdir /a`,
`mkdir /b`, creating `/b/f` and deleting `/a` all succeed. The deletion shifts
`b` and `f` down by one slot but keeps their `parent_dir` fields: the record
`f`, now at index 2, has parent 2, which is `f` itself and not a directory. -/
theorem delete_breaks_parent_link :
    (fs_make_dir fresh_state [47, 97]).1 = true ∧
    (fs_make_dir (fs_make_dir fresh_state [47, 97]).2 [47, 98]).1 = true ∧
    (fs_create_file (fs_make_dir (fs_make_dir fresh_state [47, 97]).2 [47, 98]).2
      [47, 98, 47, 102] []).1 = true ∧
    (table_a_b_f.files 3).parent_dir = 2 ∧
    (table_a_b_f.files 2).is_dir = true ∧
    (fs_delete_file table_a_b_f [47, 97]).1 = true ∧
    (fs_delete_file table_a_b_f [47, 97]).2.num_files = 3 ∧
    cstr ((fs_delete_file table_a_b_f [47, 97]).2.files 2).name = [102] ∧
    ((fs_delete_file table_a_b_f [47, 97]).2.files 2).parent_dir = 2 ∧
    ((fs_delete_file table_a_b_f [47, 97]).2.files 2).is_dir = false := by
  refine ⟨by decide, by decide, by decide, by decide, by decide, by decide, by decide,
    by decide, by decide, by decide⟩

/-- C12 (the code at the failing input). On the fresh table `fs_delete_file("/")`
succeeds and leaves the table empty; a following `fs_create_file("/x", "")`
succeeds again and puts the file `x` at index 0, with parent 0. -/
theorem delete_root_empties_table :
    fresh_state.num_files = 1 ∧
    (fs_delete_file fresh_state [47]).1 = true ∧
    (fs_delete_file fresh_state [47]).2.num_files = 0 ∧
    (fs_create_file (fs_delete_file fresh_state [47]).2 [47, 120] []).1 = true ∧
    ((fs_create_file (fs_delete_file fresh_state [47]).2 [47, 120] []).2.files 0).is_dir = false ∧
    ((fs_create_file (fs_delete_file fresh_state [47]).2 [47, 120] []).2.files 0).parent_dir = 0 := by
  refine ⟨by decide, by decide, by decide, by decide, by decide, by decide⟩

/-- C13 (the code at the failing input). On the fresh table `fs_create_file("/a", "")`
and then `fs_make_dir("/a")` both succeed: records 1 and 2 have the same
parent 0 and the same name `a`, the first a file, the second a directory, and
`find_file("/a")` resolves to the file. -/
theorem file_and_dir_share_name :
    (fs_create_file fresh_state [47, 97] []).1 = true ∧
    (fs_make_dir (fs_create_file fresh_state [47, 97] []).2 [47, 97]).1 = true ∧
    (fs_make_dir (fs_create_file fresh_state [47, 97] []).2 [47, 97]).2.num_files = 3 ∧
    ((fs_make_dir (fs_create_file fresh_state [47, 97] []).2 [47, 97]).2.files 1).parent_dir = 0 ∧
    ((fs_make_dir (fs_create_file fresh_state [47, 97] []).2 [47, 97]).2.files 2).parent_dir = 0 ∧
    cstr ((fs_make_dir (fs_create_file fresh_state [47, 97] []).2 [47, 97]).2.files 1).name = [97] ∧
    cstr ((fs_make_dir (fs_create_file fresh_state [47, 97] []).2 [47, 97]).2.files 2).name = [97] ∧
    ((fs_make_dir (fs_create_file fresh_state [47, 97] []).2 [47, 97]).2.files 1).is_dir = false ∧
    ((fs_make_dir (fs_create_file fresh_state [47, 97] []).2 [47, 97]).2.files 2).is_dir = true ∧
    find_file (fs_make_dir (fs_create_file fresh_state [47, 97] []).2 [47, 97]).2 [47, 97] = 1 := by
  refine ⟨by decide, by decide, by decide, by decide, by decide, by decide, by decide,
    by decide, by decide, by decide⟩

/-! ## What a successful creation appends -/

/-- Closed form of a successful `fs_create_file`. -/
theorem fs_create_file_success (st : FS) (path content : List Nat)
    (hok : (fs_create_file st path content).1 = true) :
    bad_parent st.files (find_file st (split_path path).1) = false ∧
    name_taken st.files st.num_files (find_file st (split_path path).1) (split_path path).2
      = false ∧
    st.num_files < MAX_FILES ∧
    fs_create_file st path content =
      (true, { st with
        files := set_file st.files st.num_files
          { name := strncpy31 (split_path path).2, is_dir := false,
            parent_dir := find_file st (split_path path).1,
            size := min (strlen content % U32) MAX_FILE_SIZE,
            data := memcpy (st.files st.num_files).data content
              (min (strlen content % U32) MAX_FILE_SIZE) },
        num_files := st.num_files + 1 }) := by
  have hbad : bad_parent st.files (find_file st (split_path path).1) = false := by
    by_contra hb
    simp [fs_create_file, hb] at hok
  have htaken : name_taken st.files st.num_files (find_file st (split_path path).1)
      (split_path path).2 = false := by
    by_contra hb
    simp [fs_create_file, hbad, hb] at hok
  have hroom : ¬ st.num_files ≥ MAX_FILES := by
    intro hb
    simp [fs_create_file, hbad, htaken, hb] at hok
  refine ⟨hbad, htaken, Nat.lt_of_not_ge hroom, ?_⟩
  unfold fs_create_file
  simp only [hbad, htaken, hroom, if_false, Bool.false_eq_true]

theorem memcpy_take (dst src : List Nat) (n : Nat) (h : n ≤ src.length) :
    (memcpy dst src n).take n = src.take n := by
  unfold memcpy
  rw [List.take_append_of_le_length (by rw [List.length_take]; omega)]
  rw [List.take_take, Nat.min_self]

/-- C16. Whenever `fs_create_file` succeeds (for a leaf name that fits the
32-byte `file_name` buffer and a content shorter than 4 GiB), the record count
grows by one, every slot other than the new last one is unchanged, and the
record appended at the old count is a non-directory whose parent is the
resolved parent directory, whose name is the leaf name, whose size is
`min(strlen(content), MAX_FILE_SIZE)` and whose first `size` data bytes are the
first `size` bytes of the content. -/
theorem create_appends_record (st : FS) (path content : List Nat)
    (hleaf : (split_path path).2.length < MAX_FILENAME_LENGTH)
    (hcontent : content.length < U32)
    (hok : (fs_create_file st path content).1 = true) :
    (fs_create_file st path content).2.num_files = st.num_files + 1 ∧
    (∀ i, i ≠ st.num_files → (fs_create_file st path content).2.files i = st.files i) ∧
    ((fs_create_file st path content).2.files st.num_files).is_dir = false ∧
    ((fs_create_file st path content).2.files st.num_files).parent_dir
      = find_file st (split_path path).1 ∧
    find_file st (split_path path).1 ≠ -1 ∧
    (st.files (find_file st (split_path path).1).toNat).is_dir = true ∧
    cstr ((fs_create_file st path content).2.files st.num_files).name = (split_path path).2 ∧
    ((fs_create_file st path content).2.files st.num_files).size
      = min (strlen content) MAX_FILE_SIZE ∧
    ((fs_create_file st path content).2.files st.num_files).data.take
        (min (strlen content) MAX_FILE_SIZE)
      = content.take (min (strlen content) MAX_FILE_SIZE) := by
  obtain ⟨hbad, _, _, hst⟩ := fs_create_file_success st path content hok
  have hlen := strlen_le_length content
  have hmod : strlen content % U32 = strlen content := Nat.mod_eq_of_lt (by omega)
  have hparent : find_file st (split_path path).1 ≠ -1 ∧
      (st.files (find_file st (split_path path).1).toNat).is_dir = true := by
    unfold bad_parent at hbad
    simp only [Bool.or_eq_false_iff, decide_eq_false_iff_not, Bool.not_eq_false'] at hbad
    exact hbad
  rw [hst]
  dsimp only
  rw [hmod]
  refine ⟨rfl, ?_, ?_, ?_, hparent.1, hparent.2, ?_, ?_, ?_⟩
  · intro i hi
    unfold set_file
    rw [if_neg hi]
  · unfold set_file; rw [if_pos rfl]
  · unfold set_file; rw [if_pos rfl]
  · unfold set_file; rw [if_pos rfl]
    exact cstr_strncpy31 _ (split_path_leaf_ne_zero path) hleaf
  · unfold set_file; rw [if_pos rfl]
  · unfold set_file; rw [if_pos rfl]
    exact memcpy_take _ _ _ (by
      have := Nat.min_le_left (strlen content) MAX_FILE_SIZE
      omega)

set_option maxRecDepth 100000 in
theorem create_appends_record_witness :
    (fs_create_file fresh_state [47, 97] (List.replicate 1025 120)).1 = true ∧
    ((fs_create_file fresh_state [47, 97] (List.replicate 1025 120)).2.num_files
        = fresh_state.num_files + 1 ∧
      (∀ i, i ≠ fresh_state.num_files →
        (fs_create_file fresh_state [47, 97] (List.replicate 1025 120)).2.files i
          = fresh_state.files i) ∧
      ((fs_create_file fresh_state [47, 97] (List.replicate 1025 120)).2.files
          fresh_state.num_files).is_dir = false ∧
      ((fs_create_file fresh_state [47, 97] (List.replicate 1025 120)).2.files
          fresh_state.num_files).parent_dir
        = find_file fresh_state (split_path [47, 97]).1 ∧
      find_file fresh_state (split_path [47, 97]).1 ≠ -1 ∧
      (fresh_state.files (find_file fresh_state (split_path [47, 97]).1).toNat).is_dir = true ∧
      cstr ((fs_create_file fresh_state [47, 97] (List.replicate 1025 120)).2.files
          fresh_state.num_files).name = (split_path [47, 97]).2 ∧
      ((fs_create_file fresh_state [47, 97] (List.replicate 1025 120)).2.files
          fresh_state.num_files).size
        = min (strlen (List.replicate 1025 120)) MAX_FILE_SIZE ∧
      ((fs_create_file fresh_state [47, 97] (List.replicate 1025 120)).2.files
          fresh_state.num_files).data.take (min (strlen (List.replicate 1025 120)) MAX_FILE_SIZE)
        = (List.replicate 1025 120).take
            (min (strlen (List.replicate 1025 120)) MAX_FILE_SIZE)) :=
  ⟨by decide,
   create_appends_record fresh_state [47, 97] (List.replicate 1025 120) (by decide)
     (by decide) (by decide)⟩

/-! ## Structural mutations and the persistence scheduler -/

theorem fs_make_dir_success (st : FS) (path : List Nat)
    (hok : (fs_make_dir st path).1 = true) :
    ∃ full, mkdir_full_path st path = some full ∧ st.num_files < MAX_FILES ∧
      bad_parent st.files (find_file st (split_path full).1) = false ∧
      dir_taken st.files st.num_files (find_file st (split_path full).1) (split_path full).2
        = false ∧
      fs_make_dir st path = (true, fs_periodic_save (mkdir_table st full)) := by
  unfold fs_make_dir at hok ⊢
  by_cases hfull : st.num_files ≥ MAX_FILES
  · rw [if_pos hfull] at hok; simp at hok
  · rw [if_neg hfull] at hok ⊢
    cases hmp : mkdir_full_path st path with
    | none => rw [hmp] at hok; simp at hok
    | some full =>
      rw [hmp] at hok
      dsimp only at hok ⊢
      by_cases hb : bad_parent st.files (find_file st (split_path full).1) = true
      · rw [if_pos hb] at hok; simp at hok
      · rw [if_neg hb] at hok
        by_cases ht : dir_taken st.files st.num_files (find_file st (split_path full).1)
            (split_path full).2 = true
        · rw [if_pos ht] at hok; simp at hok
        · refine ⟨full, rfl, Nat.lt_of_not_ge hfull, by simpa using hb, by simpa using ht, ?_⟩
          rw [if_neg hb, if_neg ht]
          rfl

theorem fs_delete_file_success (st : FS) (path : List Nat)
    (hok : (fs_delete_file st path).1 = true) :
    find_file st path ≠ -1 ∧
    ¬ ((st.files (find_file st path).toNat).is_dir = true ∧
        has_child st.files st.num_files (find_file st path) = true) ∧
    fs_delete_file st path = (true, fs_periodic_save (delete_table st path)) := by
  unfold fs_delete_file at hok ⊢
  dsimp only at hok ⊢
  by_cases hf : find_file st path = -1
  · rw [if_pos hf] at hok; simp at hok
  · rw [if_neg hf] at hok ⊢
    by_cases hd : (st.files (find_file st path).toNat).is_dir = true ∧
        has_child st.files st.num_files (find_file st path) = true
    · rw [if_pos hd] at hok; simp at hok
    · rw [if_neg hd]
      exact ⟨hf, hd, rfl⟩

/-- C20 (as amended). A successful `fs_make_dir` or `fs_delete_file` ends with a
call of `fs_periodic_save` on the mutated table (same flash, script, clock and
cursor as before, record count one more, respectively one less). That call
writes a snapshot with `fs_write_to_flash` only if more than 300000 ms have
elapsed since `last_save_time`; otherwise it changes nothing. -/
theorem mutation_saves_when_due (st : FS) (path : List Nat) :
    ((fs_make_dir st path).1 = true →
      ∃ m, same_but_table st m ∧ m.num_files = st.num_files + 1 ∧
        (fs_make_dir st path).2 = fs_periodic_save m) ∧
    ((fs_delete_file st path).1 = true →
      ∃ m, same_but_table st m ∧ m.num_files = (st.num_files + U32 - 1) % U32 ∧
        (fs_delete_file st path).2 = fs_periodic_save m) ∧
    (∀ m : FS, save_due m →
      fs_periodic_save m
        = { (fs_write_to_flash m).2 with last_save_time := esp_log_timestamp m }) ∧
    (∀ m : FS, ¬ save_due m → fs_periodic_save m = m) := by
  refine ⟨?_, ?_, ?_, ?_⟩
  · intro hok
    obtain ⟨full, _, _, _, _, h⟩ := fs_make_dir_success st path hok
    exact ⟨mkdir_table st full, rfl, rfl, by rw [h]⟩
  · intro hok
    obtain ⟨_, _, h⟩ := fs_delete_file_success st path hok
    exact ⟨delete_table st path, rfl, rfl, by rw [h]⟩
  · intro m hm
    unfold save_due at hm
    unfold fs_periodic_save
    dsimp only
    rw [if_pos hm]
  · intro m hm
    unfold save_due at hm
    unfold fs_periodic_save
    dsimp only
    rw [if_neg hm]

theorem mutation_saves_when_due_witness :
    (fs_make_dir fresh_state [47, 97]).1 = true ∧
    (∃ m, same_but_table fresh_state m ∧ m.num_files = fresh_state.num_files + 1 ∧
      (fs_make_dir fresh_state [47, 97]).2 = fs_periodic_save m) ∧
    (fs_delete_file table_a_b_f [47, 97]).1 = true ∧
    (∃ m, same_but_table table_a_b_f m ∧
      m.num_files = (table_a_b_f.num_files + U32 - 1) % U32 ∧
      (fs_delete_file table_a_b_f [47, 97]).2 = fs_periodic_save m) :=
  ⟨by decide, (mutation_saves_when_due fresh_state [47, 97]).1 (by decide),
   by decide, (mutation_saves_when_due table_a_b_f [47, 97]).2.1 (by decide)⟩

set_option maxRecDepth 100000 in
/-- C20 (counterexample). On the fresh table at uptime 1000 ms with
`last_save_time = 0`, `fs_make_dir("/a")` succeeds but writes no snapshot: the
first flash byte is still erased and the cursor is still 0, whereas
`fs_write_to_flash` on the resulting table puts the magic there and moves the
cursor to 1. -/
theorem mkdir_without_snapshot :
    (fs_make_dir fresh_state [47, 97]).1 = true ∧
    (fs_make_dir fresh_state [47, 97]).2.num_files = 2 ∧
    (fs_make_dir fresh_state [47, 97]).2.flash 0 = 255 ∧
    (fs_make_dir fresh_state [47, 97]).2.current_sector = 0 ∧
    (fs_write_to_flash (fs_make_dir fresh_state [47, 97]).2).2.flash 0 = 70 ∧
    (fs_write_to_flash (fs_make_dir fresh_state [47, 97]).2).2.current_sector = 1 := by
  refine ⟨by decide, by decide, by decide, by decide, by decide, by decide⟩

/-! ## Tokenisation -/

theorem strtok_aux_eq_split (s : List Nat) :
    ∀ acc : List Nat, strtok_aux s acc
      = (List.splitOnP.go (fun c => c == SLASH) s acc).filter (fun seg => decide (seg ≠ [])) := by
  induction s with
  | nil =>
    intro acc
    unfold strtok_aux List.splitOnP.go
    by_cases h : acc = []
    · subst h; rfl
    · have h2 : acc.reverse ≠ [] := by simpa using h
      rw [if_neg h, List.filter_cons_of_pos (by simpa using h2)]
      rfl
  | cons c cs ih =>
    intro acc
    unfold strtok_aux List.splitOnP.go
    by_cases hc : c = SLASH
    · have hb : (c == SLASH) = true := by simpa using hc
      rw [if_pos hc, hb, if_pos rfl]
      by_cases h : acc = []
      · subst h
        rw [if_pos rfl, ih []]
        rfl
      · have h2 : acc.reverse ≠ [] := by simpa using h
        rw [if_neg h, ih [], List.filter_cons_of_pos (by simpa using h2)]
    · have hb : (c == SLASH) = false := by simpa using hc
      rw [if_neg hc, hb, ih (c :: acc)]
      rfl

theorem strtok_all_eq_ref (s : List Nat) : strtok_all s = ref_segments s := by
  unfold strtok_all ref_segments List.splitOn List.splitOnP
  exact strtok_aux_eq_split s []

theorem strtok_aux_name (a : List Nat) (ha : ∀ c ∈ a, c ≠ SLASH) :
    ∀ rest acc : List Nat, strtok_aux (a ++ rest) acc = strtok_aux rest (a.reverse ++ acc) := by
  induction a with
  | nil => intro rest acc; rfl
  | cons c cs ih =>
    intro rest acc
    have hc : c ≠ SLASH := ha c (List.mem_cons_self _ _)
    have hcs : ∀ x ∈ cs, x ≠ SLASH := fun x hx => ha x (List.mem_cons_of_mem _ hx)
    rw [List.cons_append, strtok_aux, if_neg hc, ih hcs, List.reverse_cons, List.append_assoc]
    rfl

theorem strtok_all_slash (rest : List Nat) : strtok_all (SLASH :: rest) = strtok_all rest := by
  unfold strtok_all
  rw [strtok_aux, if_pos rfl, if_pos rfl]

theorem strtok_all_name_slash (a rest : List Nat) (ha : is_name a) :
    strtok_all (a ++ SLASH :: rest) = a :: strtok_all rest := by
  unfold strtok_all
  rw [strtok_aux_name a (fun c hc => (ha.2 c hc).1), List.append_nil, strtok_aux, if_pos rfl,
    if_neg (by simpa using ha.1), List.reverse_reverse]

theorem strtok_all_name (a : List Nat) (ha : is_name a) : strtok_all a = [a] := by
  have h := strtok_aux_name a (fun c hc => (ha.2 c hc).1) [] []
  unfold strtok_all
  rw [List.append_nil] at h
  rw [h, List.append_nil, strtok_aux, if_neg (by simpa using ha.1), List.reverse_reverse]

theorem cstr_eq_self (s : List Nat) (h : ∀ c ∈ s, c ≠ 0) : cstr s = s := by
  unfold cstr
  rw [List.takeWhile_eq_self_iff]
  intro c hc
  simpa using h c hc

/-! ## The resolver against the reference walk -/

theorem find_eq_head_filter (p q : Nat → Bool) (l : List Nat) (h : ∀ x, p x = q x) :
    l.find? p = (l.filter q).head? := by
  induction l with
  | nil => rfl
  | cons a l ih =>
    rw [List.find?_cons, List.filter_cons, ← h a]
    cases hp : p a
    · simpa using ih
    · simp

theorem find_child_eq_ref (files : Nat → File) (n : Nat) (cur : Int) (tok : List Nat) :
    find_child files n cur tok = ref_child files n cur tok := by
  unfold find_child ref_child
  apply find_eq_head_filter
  intro i
  unfold is_child
  by_cases h1 : (files i).parent_dir = cur <;> by_cases h2 : cstr (files i).name = tok <;>
    simp [h1, h2]

theorem foldl_ref_step_none (files : Nat → File) (n : Nat) (toks : List (List Nat)) :
    toks.foldl (ref_step files n) none = none := by
  induction toks with
  | nil => rfl
  | cons t ts ih => exact ih

theorem ref_step_some (files : Nat → File) (n : Nat) (cur : Int) (tok : List Nat) :
    ref_step files n (some cur) tok = (find_child files n cur tok).map Int.ofNat := by
  rw [find_child_eq_ref]
  rfl

theorem find_walk_eq_ref (files : Nat → File) (n : Nat) (toks : List (List Nat)) :
    ∀ cur : Int, find_walk files n toks cur
      = ((toks.foldl (ref_step files n) (some cur)).getD (-1)) := by
  induction toks with
  | nil => intro cur; rfl
  | cons tok toks ih =>
    intro cur
    rw [List.foldl_cons, ref_step_some, find_walk]
    cases hfc : find_child files n cur tok with
    | none =>
      rw [Option.map_none', foldl_ref_step_none]
      rfl
    | some i =>
      rw [Option.map_some']
      exact ih (i : Int)

theorem find_file_eq_ref (st : FS) (path : List Nat) : find_file st path = ref_resolve st path := by
  unfold find_file ref_resolve
  rw [strtok_all_eq_ref]
  exact find_walk_eq_ref _ _ _ _

theorem is_name_ne_zero (a : List Nat) (ha : is_name a) : ∀ c ∈ a, c ≠ 0 :=
  fun c hc => (ha.2 c hc).2

/-- C15. For every state and path `find_file` returns what the reference walk
returns: start at 0 for a path beginning with `'/'`, else at the current
directory; for each non-empty `'/'`-separated segment move to the first record
in table order with that name and the current position as parent, and report
`-1` as soon as there is none. Hence `"//a///b/"` resolves like `"/a/b"` for all
segments `a`, `b`, and `"/"` resolves to 0. -/
theorem find_file_refines_reference (st : FS) (path : List Nat) :
    find_file st path = ref_resolve st path ∧
    (∀ a b : List Nat, is_name a → is_name b →
      find_file st (SLASH :: SLASH :: (a ++ SLASH :: SLASH :: SLASH :: (b ++ [SLASH])))
        = find_file st (SLASH :: (a ++ SLASH :: b))) ∧
    find_file st [SLASH] = 0 := by
  refine ⟨find_file_eq_ref st path, ?_, rfl⟩
  intro a b ha hb
  have hz1 : ∀ c ∈ SLASH :: SLASH :: (a ++ SLASH :: SLASH :: SLASH :: (b ++ [SLASH])), c ≠ 0 := by
    intro c hc
    simp only [List.mem_cons, List.mem_append, List.not_mem_nil, or_false] at hc
    rcases hc with h | h | h | h | h | h | h | h
    all_goals first
      | (rw [h]; decide)
      | exact is_name_ne_zero a ha c h
      | exact is_name_ne_zero b hb c h
  have hz2 : ∀ c ∈ SLASH :: (a ++ SLASH :: b), c ≠ 0 := by
    intro c hc
    simp only [List.mem_cons, List.mem_append] at hc
    rcases hc with h | h | h | h
    all_goals first
      | (rw [h]; decide)
      | exact is_name_ne_zero a ha c h
      | exact is_name_ne_zero b hb c h
  have t1 : strtok_all (SLASH :: SLASH :: (a ++ SLASH :: SLASH :: SLASH :: (b ++ [SLASH])))
      = [a, b] := by
    rw [strtok_all_slash, strtok_all_slash, strtok_all_name_slash a _ ha, strtok_all_slash,
      strtok_all_slash, strtok_all_name_slash b _ hb]
    rfl
  have t2 : strtok_all (SLASH :: (a ++ SLASH :: b)) = [a, b] := by
    rw [strtok_all_slash, strtok_all_name_slash a _ ha, strtok_all_name b hb]
  unfold find_file
  rw [cstr_eq_self _ hz1, cstr_eq_self _ hz2, t1, t2]
  rfl

theorem find_file_refines_reference_witness :
    is_name [97] ∧ is_name [98] ∧
    find_file table_a_b_f [47, 47, 97, 47, 47, 47, 98, 47] = find_file table_a_b_f [47, 97, 47, 98] :=
  ⟨by decide, by decide,
   (find_file_refines_reference table_a_b_f []).2.1 [97] [98] (by decide) (by decide)⟩

/-! ## Absolute resolution against successive `fs_change_dir` -/

theorem is_name_cstr (a : List Nat) (ha : is_name a) : cstr a = a :=
  cstr_eq_self a (is_name_ne_zero a ha)

theorem is_name_head (a : List Nat) (ha : is_name a) : a.head? ≠ some SLASH := by
  obtain ⟨hne, hc⟩ := ha
  cases a with
  | nil => exact absurd rfl hne
  | cons c cs =>
    intro h
    have : c = SLASH := by simpa using h
    exact (hc c (List.mem_cons_self _ _)).1 this

theorem find_file_name (st : FS) (a : List Nat) (ha : is_name a) :
    find_file st a = find_walk st.files st.num_files [a] st.current_dir := by
  unfold find_file
  rw [is_name_cstr a ha, strtok_all_name a ha, if_neg (is_name_head a ha)]

theorem cstr_cons_slash (s : List Nat) (h : cstr s = s) : cstr (SLASH :: s) = SLASH :: s := by
  unfold cstr at h ⊢
  rw [List.takeWhile_cons, if_pos (by decide), h]

theorem cstr_name_slash (a s : List Nat) (ha : is_name a) (h : cstr s = s) :
    cstr (a ++ SLASH :: s) = a ++ SLASH :: s := by
  apply cstr_eq_self
  intro c hc
  rw [List.mem_append] at hc
  rcases hc with hc | hc
  · exact is_name_ne_zero a ha c hc
  · rw [← cstr_cons_slash s h] at hc
    exact cstr_ne_zero _ c hc

theorem find_walk_nil (files : Nat → File) (n : Nat) (cur : Int) :
    find_walk files n [] cur = cur := rfl

theorem find_walk_cons_some (files : Nat → File) (n : Nat) (tok : List Nat)
    (toks : List (List Nat)) (cur : Int) (i : Nat) (h : find_child files n cur tok = some i) :
    find_walk files n (tok :: toks) cur = find_walk files n toks (i : Int) := by
  rw [find_walk.eq_def]
  dsimp only
  rw [h]

theorem find_walk_cons_none (files : Nat → File) (n : Nat) (tok : List Nat)
    (toks : List (List Nat)) (cur : Int) (h : find_child files n cur tok = none) :
    find_walk files n (tok :: toks) cur = -1 := by
  rw [find_walk.eq_def]
  dsimp only
  rw [h]

/-- The successful descent of `fs_change_dir` into a child named `a`. -/
theorem fs_change_dir_name (st : FS) (a : List Nat) (i : Nat) (ha : is_name a)
    (hdots : a ≠ [DOT, DOT])
    (hchild : find_child st.files st.num_files st.current_dir a = some i)
    (hdir : (st.files i).is_dir = true) :
    (fs_change_dir st a).1 = true ∧
    (fs_change_dir st a).2.current_dir = (i : Int) ∧
    (fs_change_dir st a).2.files = st.files ∧
    (fs_change_dir st a).2.num_files = st.num_files := by
  have hfind : find_file st a = (i : Int) := by
    rw [find_file_name st a ha, find_walk_cons_some _ _ _ _ _ _ hchild]
    rfl
  have hslash : ¬ cstr a = [SLASH] := by
    rw [is_name_cstr a ha]
    intro h
    exact (ha.2 SLASH (by rw [h]; exact List.mem_singleton_self _)).1 rfl
  unfold fs_change_dir
  rw [if_neg hslash, if_neg (by rw [is_name_cstr a ha]; exact hdots)]
  dsimp only
  rw [hfind, if_neg (by
    rw [Int.toNat_ofNat, hdir]
    intro h
    rcases h with h | h
    · omega
    · exact absurd h (by decide))]
  exact ⟨rfl, rfl, rfl, rfl⟩

/-- C14 (as amended). With the root as current directory, for all segments `a`,
`b`, `c` (non-empty, without `'/'`) with `a` and `b` other than `".."`, where
`"/a"` and `"/a/b"` resolve to directories: `fs_change_dir(a)` and then
`fs_change_dir(b)` succeed, and resolving the relative path `c` afterwards
gives the same index, or the same `-1`, as resolving `"/a/b/c"`. -/
theorem absolute_equals_stepwise (st : FS) (a b c : List Nat)
    (hroot : st.current_dir = 0)
    (ha : is_name a) (hb : is_name b) (hc : is_name c)
    (hadots : a ≠ [DOT, DOT]) (hbdots : b ≠ [DOT, DOT])
    (hdir_a : find_file st (SLASH :: a) ≠ -1 ∧
      (st.files (find_file st (SLASH :: a)).toNat).is_dir = true)
    (hdir_ab : find_file st (SLASH :: (a ++ SLASH :: b)) ≠ -1 ∧
      (st.files (find_file st (SLASH :: (a ++ SLASH :: b))).toNat).is_dir = true) :
    (fs_change_dir st a).1 = true ∧
    (fs_change_dir (fs_change_dir st a).2 b).1 = true ∧
    find_file (fs_change_dir (fs_change_dir st a).2 b).2 c
      = find_file st (SLASH :: (a ++ SLASH :: (b ++ SLASH :: c))) := by
  have ea : find_file st (SLASH :: a) = find_walk st.files st.num_files [a] 0 := by
    unfold find_file
    rw [cstr_cons_slash a (is_name_cstr a ha), strtok_all_slash, strtok_all_name a ha]
    rfl
  have eab : find_file st (SLASH :: (a ++ SLASH :: b))
      = find_walk st.files st.num_files [a, b] 0 := by
    unfold find_file
    rw [cstr_cons_slash _ (cstr_name_slash a b ha (is_name_cstr b hb)), strtok_all_slash,
      strtok_all_name_slash a _ ha, strtok_all_name b hb]
    rfl
  have eabc : find_file st (SLASH :: (a ++ SLASH :: (b ++ SLASH :: c)))
      = find_walk st.files st.num_files [a, b, c] 0 := by
    unfold find_file
    rw [cstr_cons_slash _
        (cstr_name_slash a _ ha (cstr_name_slash b c hb (is_name_cstr c hc))),
      strtok_all_slash, strtok_all_name_slash a _ ha, strtok_all_name_slash b _ hb,
      strtok_all_name c hc]
    rfl
  rw [ea] at hdir_a
  rw [eab] at hdir_ab
  rw [eabc]
  cases hca : find_child st.files st.num_files 0 a with
  | none =>
    rw [find_walk_cons_none _ _ _ _ _ hca] at hdir_a
    exact absurd rfl hdir_a.1
  | some i =>
    rw [find_walk_cons_some _ _ _ _ _ _ hca] at hdir_a hdir_ab
    rw [find_walk_cons_some _ _ _ _ _ _ hca]
    have hda : (st.files i).is_dir = true := by
      have := hdir_a.2
      rw [find_walk_nil, Int.toNat_ofNat] at this
      exact this
    obtain ⟨h1, h2, h3, h4⟩ := fs_change_dir_name st a i ha hadots (by rw [hroot]; exact hca) hda
    cases hcb : find_child st.files st.num_files (i : Int) b with
    | none =>
      rw [find_walk_cons_none _ _ _ _ _ hcb] at hdir_ab
      exact absurd rfl hdir_ab.1
    | some j =>
      rw [find_walk_cons_some _ _ _ _ _ _ hcb] at hdir_ab
      rw [find_walk_cons_some _ _ _ _ _ _ hcb]
      have hdb : (st.files j).is_dir = true := by
        have := hdir_ab.2
        rw [find_walk_nil, Int.toNat_ofNat] at this
        exact this
      obtain ⟨k1, k2, k3, k4⟩ := fs_change_dir_name (fs_change_dir st a).2 b j hb hbdots
        (by rw [h2, h3, h4]; exact hcb) (by rw [h3]; exact hdb)
      refine ⟨h1, k1, ?_⟩
      rw [find_file_name _ c hc, k2, k3, k4, h3, h4]

theorem absolute_equals_stepwise_witness :
    (find_file table_nested (SLASH :: [97]) ≠ -1 ∧
      (table_nested.files (find_file table_nested (SLASH :: [97])).toNat).is_dir = true) ∧
    ((fs_change_dir table_nested [97]).1 = true ∧
      (fs_change_dir (fs_change_dir table_nested [97]).2 [98]).1 = true ∧
      find_file (fs_change_dir (fs_change_dir table_nested [97]).2 [98]).2 [99]
        = find_file table_nested (SLASH :: ([97] ++ SLASH :: ([98] ++ SLASH :: [99])))) :=
  ⟨by decide,
   absolute_equals_stepwise table_nested [97] [98] [99] (by decide) (by decide) (by decide)
     (by decide) (by decide) (by decide) (by decide) (by decide)⟩

/-- C14 (counterexample). The table holds a directory literally named `..` under
the root, the directory `b` inside it and the file `c` inside that. With the
root as current directory, `"/.."` and `"/../b"` resolve to directories and
`"/../b/c"` resolves to index 3; but `fs_change_dir("..")` is the no-op at the
root, `fs_change_dir("b")` then fails, and resolving `"c"` gives `-1`. -/
theorem stepwise_differs_on_dotdot :
    table_dotdot.current_dir = 0 ∧
    is_name [46, 46] ∧ is_name [98] ∧ is_name [99] ∧
    find_file table_dotdot [47, 46, 46] = 1 ∧
    (table_dotdot.files 1).is_dir = true ∧
    find_file table_dotdot [47, 46, 46, 47, 98] = 2 ∧
    (table_dotdot.files 2).is_dir = true ∧
    find_file table_dotdot [47, 46, 46, 47, 98, 47, 99] = 3 ∧
    (fs_change_dir table_dotdot [46, 46]).1 = true ∧
    (fs_change_dir table_dotdot [46, 46]).2.current_dir = 0 ∧
    (fs_change_dir (fs_change_dir table_dotdot [46, 46]).2 [98]).1 = false ∧
    find_file (fs_change_dir (fs_change_dir table_dotdot [46, 46]).2 [98]).2 [99] = -1 := by
  refine ⟨by decide, by decide, by decide, by decide, by decide, by decide, by decide,
    by decide, by decide, by decide, by decide, by decide, by decide⟩

/-! ## One iteration of the flash writer -/

theorem io_next_eq (st : FS) :
    io_next st = (st.io.headD ESP_OK, { st with io := st.io.drop 1 }) := by
  obtain ⟨files, n, cd, cp, cs, ls, fl, io, now, hp, pp⟩ := st
  cases io <;> rfl

theorem same_but_flash_io_refl (a : FS) : same_but_flash_io a a := rfl

theorem same_but_flash_io_trans {a b c : FS} (h1 : same_but_flash_io a b)
    (h2 : same_but_flash_io b c) : same_but_flash_io a c := by
  unfold same_but_flash_io at *
  rw [h2, h1]

theorem erase_frame (st : FS) (off size : Nat) :
    same_but_flash_io st (esp_partition_erase_range st off size).2 := by
  unfold esp_partition_erase_range
  rw [io_next_eq]
  dsimp only
  split_ifs <;> rfl

theorem write_frame (st : FS) (off : Nat) (buf : Nat → Nat) (size : Nat) :
    same_but_flash_io st (esp_partition_write st off buf size).2 := by
  unfold esp_partition_write
  rw [io_next_eq]
  dsimp only
  split_ifs <;> rfl

theorem write_sectors_frame (total timestamp : Nat) :
    ∀ (remaining i : Nat) (st : FS),
      same_but_flash_io st (write_sectors total timestamp remaining i st).2 := by
  intro remaining
  induction remaining with
  | zero => intro i st; exact same_but_flash_io_refl st
  | succ r ih =>
    intro i st
    have he := erase_frame st ((st.current_sector + i) % NUM_SECTORS * SECTOR_SIZE) SECTOR_SIZE
    unfold write_sectors
    dsimp only
    split_ifs <;>
      first
      | exact he
      | exact same_but_flash_io_trans he (write_frame _ _ _ _)
      | exact same_but_flash_io_trans he
          (same_but_flash_io_trans (write_frame _ _ _ _) (ih _ _))

/-- The iteration of `write_sectors` in terms of the two primitive results. -/
theorem write_sectors_succ (total timestamp r i : Nat) (st : FS) :
    write_sectors total timestamp (r + 1) i st =
      if st.io.headD ESP_OK ≠ ESP_OK then
        (st.io.headD ESP_OK, { st with io := st.io.drop 1 })
      else if st.heap_ok = false then
        (ESP_ERR_NO_MEM,
          { st with io := st.io.drop 1,
                    flash := sector_written st.flash (target_sector st i) (fun _ => 255) 0 })
      else if (st.io.drop 1).headD ESP_OK ≠ ESP_OK then
        ((st.io.drop 1).headD ESP_OK,
          { st with io := st.io.drop 2,
                    flash := sector_written st.flash (target_sector st i) (fun _ => 255) 0 })
      else
        write_sectors total timestamp r (i + 1)
          { st with io := st.io.drop 2,
                    flash := sector_written st.flash (target_sector st i)
                      (write_buffer st.files st.num_files timestamp total i)
                      (write_size total i) } := by
  rw [write_sectors]
  unfold esp_partition_erase_range
  rw [io_next_eq]
  dsimp only
  by_cases h1 : st.io.headD ESP_OK ≠ ESP_OK
  · rw [if_pos h1, if_pos h1, if_pos h1]
  · rw [if_neg h1, if_neg h1]
    dsimp only
    rw [if_neg (by decide)]
    have hfl0 : (fun a => if (st.current_sector + i) % NUM_SECTORS * SECTOR_SIZE ≤ a ∧
          a < (st.current_sector + i) % NUM_SECTORS * SECTOR_SIZE + SECTOR_SIZE then 255
          else st.flash a)
        = sector_written st.flash (target_sector st i) (fun _ => 255) 0 := by
      funext a
      unfold sector_written target_sector
      split_ifs <;> first | rfl | omega
    rw [hfl0]
    by_cases h2 : st.heap_ok = false
    · rw [if_pos h2, if_pos h2]
    · rw [if_neg h2, if_neg h2]
      unfold esp_partition_write
      rw [io_next_eq]
      dsimp only
      rw [List.drop_drop]
      by_cases h3 : (st.io.drop 1).headD ESP_OK ≠ ESP_OK
      · rw [if_pos h3, if_pos h3, if_pos h3]
      · rw [if_neg h3, if_neg h3]
        dsimp only
        rw [if_neg (by decide)]
        congr 2
        funext a
        unfold sector_written target_sector write_buffer write_size
        by_cases hi : i = 0
        · subst hi
          simp only [if_true]
          split_ifs <;> first | rfl | omega
        · simp only [if_neg hi]
          split_ifs <;> first | rfl | omega

theorem write_size_le (total i : Nat) : write_size total i ≤ SECTOR_SIZE := by
  unfold write_size
  split_ifs
  · exact Nat.le_refl _
  · exact Nat.min_le_left _ _

theorem sector_written_in (flash : Nat → Nat) (s : Nat) (buf : Nat → Nat) (size j : Nat)
    (hj : j < size) : sector_written flash s buf size (s * SECTOR_SIZE + j) = buf j := by
  unfold sector_written
  rw [if_pos ⟨Nat.le_add_right _ _, Nat.add_lt_add_left hj _⟩, Nat.add_sub_cancel_left]

theorem sector_written_out (flash : Nat → Nat) (s : Nat) (buf : Nat → Nat) (size a : Nat)
    (hsize : size ≤ SECTOR_SIZE) (ha : a / SECTOR_SIZE ≠ s) :
    sector_written flash s buf size a = flash a := by
  unfold sector_written
  unfold SECTOR_SIZE at *
  rw [if_neg (by omega), if_neg (by omega)]

theorem target_sector_ne (st : FS) (i k : Nat) (h1 : i < k) (h2 : k < i + NUM_SECTORS) :
    target_sector st i ≠ target_sector st k := by
  unfold target_sector NUM_SECTORS at *
  omega

theorem target_sector_div (st : FS) (i j : Nat) (hj : j < SECTOR_SIZE) :
    (target_sector st i * SECTOR_SIZE + j) / SECTOR_SIZE = target_sector st i := by
  unfold SECTOR_SIZE at *
  omega

/-- After a run of `write_sectors` that returns `ESP_OK`, every target sector
holds its buffer and every byte outside the target sectors is untouched. -/
theorem write_sectors_flash (total timestamp : Nat) :
    ∀ (r i : Nat) (st : FS),
      (write_sectors total timestamp r i st).1 = ESP_OK → i + r ≤ NUM_SECTORS →
      (∀ k j, i ≤ k → k < i + r → j < write_size total k →
        (write_sectors total timestamp r i st).2.flash (target_sector st k * SECTOR_SIZE + j)
          = write_buffer st.files st.num_files timestamp total k j) ∧
      (∀ a, (∀ k, i ≤ k → k < i + r → a / SECTOR_SIZE ≠ target_sector st k) →
        (write_sectors total timestamp r i st).2.flash a = st.flash a) := by
  intro r
  induction r with
  | zero =>
    intro i st _ _
    exact ⟨fun k j h1 h2 _ => absurd h2 (by omega), fun a _ => rfl⟩
  | succ r ih =>
    intro i st hok hle
    rw [write_sectors_succ] at hok ⊢
    by_cases h1 : st.io.headD ESP_OK ≠ ESP_OK
    · rw [if_pos h1] at hok; exact absurd hok h1
    · rw [if_neg h1] at hok ⊢
      by_cases h2 : st.heap_ok = false
      · rw [if_pos h2] at hok
        exact absurd (show ESP_ERR_NO_MEM = ESP_OK from hok) (by decide)
      · rw [if_neg h2] at hok ⊢
        by_cases h3 : (st.io.drop 1).headD ESP_OK ≠ ESP_OK
        · rw [if_pos h3] at hok; exact absurd hok h3
        · rw [if_neg h3] at hok ⊢
          obtain ⟨hA, hB⟩ := ih (i + 1) _ hok (by omega)
          constructor
          · intro k j hk1 hk2 hj
            rcases Nat.eq_or_lt_of_le hk1 with heq | hlt
            · subst heq
              rw [hB _ (fun k' hk'1 hk'2 => by
                rw [target_sector_div st i j (Nat.lt_of_lt_of_le hj (write_size_le _ _))]
                exact target_sector_ne st i k' (by omega) (by omega))]
              exact sector_written_in _ _ _ _ _ hj
            · exact hA k j (by omega) (by omega) hj
          · intro a ha
            rw [hB a (fun k hk1 hk2 => ha k (by omega) (by omega))]
            exact sector_written_out _ _ _ _ _ (write_size_le _ _) (ha i (Nat.le_refl _) (by omega))

/-! ## Sizes for tables within capacity -/

theorem size_facts (n : Nat) (hn : n ≤ MAX_FILES) :
    files_size n = SIZEOF_FILE * n ∧
    total_size n = HEADER_SIZE + SIZEOF_FILE * n ∧
    sectors_needed n = (HEADER_SIZE + SIZEOF_FILE * n + SECTOR_SIZE - 1) / SECTOR_SIZE ∧
    sectors_needed n ≤ 17 := by
  unfold MAX_FILES at hn
  have e1 : files_size n = SIZEOF_FILE * n := by
    unfold files_size SIZEOF_FILE U32
    exact Nat.mod_eq_of_lt (by omega)
  have e2 : total_size n = HEADER_SIZE + SIZEOF_FILE * n := by
    unfold total_size
    rw [e1]
    unfold HEADER_SIZE SIZEOF_FILE U32
    exact Nat.mod_eq_of_lt (by omega)
  have e3 : sectors_needed n = (HEADER_SIZE + SIZEOF_FILE * n + SECTOR_SIZE - 1) / SECTOR_SIZE := by
    unfold sectors_needed
    rw [e2]
    unfold HEADER_SIZE SIZEOF_FILE SECTOR_SIZE U32
    rw [Nat.mod_eq_of_lt (by omega)]
  refine ⟨e1, e2, e3, ?_⟩
  rw [e3]
  unfold HEADER_SIZE SIZEOF_FILE SECTOR_SIZE
  omega

/-- What a successful `fs_write_to_flash` returns, in terms of its loop. -/
theorem fs_write_to_flash_ok (st : FS) (hok : (fs_write_to_flash st).1 = ESP_OK) :
    sectors_needed st.num_files ≤ NUM_SECTORS ∧
    (write_sectors (total_size st.num_files) (esp_log_timestamp st)
      (sectors_needed st.num_files) 0 st).1 = ESP_OK ∧
    fs_write_to_flash st =
      (ESP_OK,
        { (write_sectors (total_size st.num_files) (esp_log_timestamp st)
            (sectors_needed st.num_files) 0 st).2 with
          current_sector := (st.current_sector + sectors_needed st.num_files) % NUM_SECTORS }) := by
  unfold fs_write_to_flash at hok ⊢
  dsimp only at hok ⊢
  by_cases h1 : sectors_needed st.num_files > NUM_SECTORS
  · rw [if_pos h1] at hok
    exact absurd (show ESP_ERR_INVALID_SIZE = ESP_OK from hok) (by decide)
  · rw [if_neg h1] at hok ⊢
    by_cases h2 : (write_sectors (total_size st.num_files) (esp_log_timestamp st)
        (sectors_needed st.num_files) 0 st).1 ≠ ESP_OK
    · rw [if_pos h2] at hok; exact absurd hok h2
    · rw [if_neg h2]
      exact ⟨Nat.le_of_not_gt h1, not_not.mp h2, rfl⟩

theorem write_buffer_stream (st : FS) (hn : st.num_files ≤ MAX_FILES) (k : Nat)
    (hk : k < total_size st.num_files) :
    write_buffer st.files st.num_files (esp_log_timestamp st) (total_size st.num_files)
        (k / SECTOR_SIZE) (k % SECTOR_SIZE)
      = snapshot_stream st k := by
  obtain ⟨e1, e2, _, _⟩ := size_facts st.num_files hn
  rw [e2] at hk
  unfold write_buffer snapshot_stream
  by_cases h0 : k / SECTOR_SIZE = 0
  · rw [if_pos h0]
    have hk0 : k % SECTOR_SIZE = k := by
      unfold SECTOR_SIZE at h0 ⊢
      omega
    rw [hk0]
    unfold first_buffer
    rw [e1]
    unfold HEADER_SIZE SIZEOF_FILE SECTOR_SIZE at *
    by_cases c1 : k < 4
    · rw [if_pos c1, if_pos c1]
    · rw [if_neg c1, if_neg c1]
      by_cases c2 : k < 8
      · rw [if_pos c2, if_pos c2]
      · rw [if_neg c2, if_neg c2]
        by_cases c3 : k < 12
        · rw [if_pos c3, if_pos c3]
        · rw [if_neg c3, if_neg c3, if_pos (by omega)]
  · rw [if_neg h0]
    unfold next_buffer write_size
    rw [if_neg h0, e2]
    unfold HEADER_SIZE SIZEOF_FILE SECTOR_SIZE at *
    rw [if_pos (by omega), if_neg (by omega), if_neg (by omega), if_neg (by omega)]
    congr 1
    omega

theorem write_size_stream (n k : Nat) (hn : n ≤ MAX_FILES) (hk : k < total_size n) :
    k / SECTOR_SIZE < sectors_needed n ∧
    k % SECTOR_SIZE < write_size (total_size n) (k / SECTOR_SIZE) := by
  obtain ⟨_, e2, e3, _⟩ := size_facts n hn
  rw [e2] at hk
  rw [e3, e2]
  unfold write_size
  unfold HEADER_SIZE SIZEOF_FILE SECTOR_SIZE at *
  constructor
  · omega
  · split_ifs <;> omega

/-- After a successful write every stream position holds the byte of the
buffer of its iteration. -/
theorem placed_byte (st : FS) (hn : st.num_files ≤ MAX_FILES)
    (hok : (fs_write_to_flash st).1 = ESP_OK) (k : Nat) (hk : k < total_size st.num_files) :
    (fs_write_to_flash st).2.flash
        (target_sector st (k / SECTOR_SIZE) * SECTOR_SIZE + k % SECTOR_SIZE)
      = write_buffer st.files st.num_files (esp_log_timestamp st) (total_size st.num_files)
          (k / SECTOR_SIZE) (k % SECTOR_SIZE) := by
  obtain ⟨hneeded, hloop, heq⟩ := fs_write_to_flash_ok st hok
  obtain ⟨h1, h2⟩ := write_size_stream st.num_files k hn hk
  have hflash := (write_sectors_flash (total_size st.num_files) (esp_log_timestamp st)
    (sectors_needed st.num_files) 0 st hloop (by omega)).1
    (k / SECTOR_SIZE) (k % SECTOR_SIZE) (Nat.zero_le _) (by omega) h2
  rw [heq]
  exact hflash

/-- C18. After a successful `fs_write_to_flash` of a table within capacity,
started at cursor `c`, every byte `k` of the logical stream (magic at 0,
timestamp at 4, record count at 8, record bytes from 12 in table order, total
`total_size`) is found at offset `k % 4096` of sector `(c + k / 4096) % 32`:
the first sector starts with the header and consecutive stream bytes continue
across sector boundaries without gap or repetition. -/
theorem snapshot_placement (st : FS) (hn : st.num_files ≤ MAX_FILES)
    (hok : (fs_write_to_flash st).1 = ESP_OK) (k : Nat) (hk : k < total_size st.num_files) :
    (fs_write_to_flash st).2.flash
        ((st.current_sector + k / SECTOR_SIZE) % NUM_SECTORS * SECTOR_SIZE + k % SECTOR_SIZE)
      = snapshot_stream st k := by
  have h := placed_byte st hn hok k hk
  unfold target_sector at h
  rw [h]
  exact write_buffer_stream st hn k hk

set_option maxRecDepth 100000 in
theorem snapshot_placement_witness :
    ({ table_a_b_f with current_sector := 31 } : FS).num_files ≤ MAX_FILES ∧
    (fs_write_to_flash { table_a_b_f with current_sector := 31 }).1 = ESP_OK ∧
    (fs_write_to_flash { table_a_b_f with current_sector := 31 }).2.flash
        ((({ table_a_b_f with current_sector := 31 } : FS).current_sector + 4100 / SECTOR_SIZE)
            % NUM_SECTORS * SECTOR_SIZE + 4100 % SECTOR_SIZE)
      = snapshot_stream { table_a_b_f with current_sector := 31 } 4100 :=
  ⟨by decide, by decide,
   snapshot_placement { table_a_b_f with current_sector := 31 } (by decide) (by decide) 4100
     (by decide)⟩

/-! ## The write cursor -/

theorem take_headD_ok (io : List Int) (m : Nat) (h : all_ok (io.take (m + 1))) :
    io.headD ESP_OK = ESP_OK := by
  cases io with
  | nil => rfl
  | cons e t => exact h e (by simp)

theorem take_drop_ok (io : List Int) (m k : Nat) (h : all_ok (io.take (m + k))) :
    all_ok ((io.drop k).take m) := by
  intro e he
  apply h e
  have h1 : e ∈ (io.take (m + k)).drop k := by
    rw [List.drop_take]
    simpa using he
  exact List.mem_of_mem_drop h1

/-- When the primitive results the loop consumes are all `ESP_OK` and the heap
delivers, `write_sectors` returns `ESP_OK`. -/
theorem write_sectors_take_ok (total timestamp : Nat) :
    ∀ (r i : Nat) (st : FS), all_ok (st.io.take (2 * r)) → st.heap_ok = true →
      (write_sectors total timestamp r i st).1 = ESP_OK := by
  intro r
  induction r with
  | zero => intro i st _ _; rfl
  | succ r ih =>
    intro i st hio hheap
    have e2 : 2 * (r + 1) = (2 * r + 1) + 1 := by omega
    have h1 : st.io.headD ESP_OK = ESP_OK := take_headD_ok st.io (2 * r + 1) (e2 ▸ hio)
    have hd1 : all_ok ((st.io.drop 1).take (2 * r + 1)) :=
      take_drop_ok st.io (2 * r + 1) 1 (e2 ▸ hio)
    have h2 : (st.io.drop 1).headD ESP_OK = ESP_OK := take_headD_ok _ (2 * r) hd1
    have hd2 : all_ok ((st.io.drop 2).take (2 * r)) :=
      take_drop_ok st.io (2 * r) 2 (by
        have e3 : 2 * (r + 1) = 2 * r + 2 := by omega
        exact e3 ▸ hio)
    rw [write_sectors_succ, if_neg (by rw [h1]; decide), if_neg (by rw [hheap]; decide),
      if_neg (by rw [h2]; decide)]
    exact ih (i + 1) _ hd2 hheap

/-- When the script is `oks ++ e :: rest` with `oks` all `ESP_OK`, `e` a failure
and fewer entries in `oks` than the loop has primitive calls, `write_sectors`
returns `e` at that call and consumes nothing after it. -/
theorem write_sectors_fail (total timestamp : Nat) (e : Int) (rest : List Int)
    (he : e ≠ ESP_OK) :
    ∀ (r i : Nat) (st : FS) (oks : List Int), st.io = oks ++ e :: rest → all_ok oks →
      oks.length < 2 * r → st.heap_ok = true →
      (write_sectors total timestamp r i st).1 = e ∧
      (write_sectors total timestamp r i st).2.io = rest := by
  intro r
  induction r with
  | zero => intro i st oks _ _ hlen _; exact absurd hlen (by omega)
  | succ r ih =>
    intro i st oks hio hoks hlen hheap
    rw [write_sectors_succ]
    cases oks with
    | nil =>
      rw [List.nil_append] at hio
      rw [hio]
      dsimp only [List.headD]
      rw [if_pos he]
      exact ⟨rfl, rfl⟩
    | cons o1 oks1 =>
      have ho1 : o1 = ESP_OK := hoks o1 (List.mem_cons_self _ _)
      subst ho1
      rw [List.cons_append] at hio
      rw [hio]
      dsimp only [List.headD]
      rw [if_neg (by decide), if_neg (by rw [hheap]; decide)]
      cases oks1 with
      | nil =>
        dsimp only [List.drop, List.nil_append, List.headD]
        rw [if_pos he]
        exact ⟨rfl, rfl⟩
      | cons o2 oks2 =>
        have ho2 : o2 = ESP_OK :=
          hoks o2 (List.mem_cons_of_mem _ (List.mem_cons_self _ _))
        subst ho2
        dsimp only [List.drop, List.cons_append, List.headD]
        rw [if_neg (by decide)]
        exact ih (i + 1) _ oks2 rfl
          (fun x hx => hoks x (List.mem_cons_of_mem _ (List.mem_cons_of_mem _ hx)))
          (by simp only [List.length_cons] at hlen; omega) hheap

theorem fs_write_to_flash_frame (st : FS) :
    (fs_write_to_flash st).1 ≠ ESP_OK →
      (fs_write_to_flash st).2.current_sector = st.current_sector := by
  have hf := write_sectors_frame (total_size st.num_files) (esp_log_timestamp st)
    (sectors_needed st.num_files) 0 st
  unfold same_but_flash_io at hf
  unfold fs_write_to_flash
  dsimp only
  split_ifs with h1 h2
  · intro _; rfl
  · intro _; rw [hf]
  · intro h; exact absurd rfl h

/-- C17. For a table within capacity, `sectors_needed` is
`ceil((12 + sizeof(File) * num_files) / 4096)`. If the heap delivers and the
results of the `2 * sectors_needed` erase and write calls are all `ESP_OK`,
`fs_write_to_flash` returns `ESP_OK` and the cursor becomes
`(cursor + sectors_needed) % NUM_SECTORS`. If one of those calls fails with `e`
after only successes, the function returns `e`, consumes no further primitive
result, and leaves the cursor unchanged; the cursor is unchanged on every
result other than `ESP_OK`. -/
theorem write_cursor (st : FS) (hn : st.num_files ≤ MAX_FILES) :
    sectors_needed st.num_files
      = (HEADER_SIZE + SIZEOF_FILE * st.num_files + SECTOR_SIZE - 1) / SECTOR_SIZE ∧
    (st.heap_ok = true → all_ok (st.io.take (2 * sectors_needed st.num_files)) →
      (fs_write_to_flash st).1 = ESP_OK ∧
      (fs_write_to_flash st).2.current_sector
        = (st.current_sector + sectors_needed st.num_files) % NUM_SECTORS) ∧
    (∀ (oks : List Int) (e : Int) (rest : List Int),
      st.heap_ok = true → st.io = oks ++ e :: rest → all_ok oks → e ≠ ESP_OK →
      oks.length < 2 * sectors_needed st.num_files →
      (fs_write_to_flash st).1 = e ∧ (fs_write_to_flash st).2.io = rest ∧
      (fs_write_to_flash st).2.current_sector = st.current_sector) ∧
    ((fs_write_to_flash st).1 ≠ ESP_OK →
      (fs_write_to_flash st).2.current_sector = st.current_sector) := by
  obtain ⟨_, _, e3, h17⟩ := size_facts st.num_files hn
  have hle : ¬ sectors_needed st.num_files > NUM_SECTORS := by
    unfold NUM_SECTORS; omega
  refine ⟨e3, ?_, ?_, fs_write_to_flash_frame st⟩
  · intro hheap hio
    have hloop := write_sectors_take_ok (total_size st.num_files) (esp_log_timestamp st)
      (sectors_needed st.num_files) 0 st hio hheap
    unfold fs_write_to_flash
    dsimp only
    rw [if_neg hle, if_neg (by rw [hloop]; decide)]
    exact ⟨rfl, rfl⟩
  · intro oks e rest hheap hio hoks he hlen
    obtain ⟨h1, h2⟩ := write_sectors_fail (total_size st.num_files) (esp_log_timestamp st)
      e rest he (sectors_needed st.num_files) 0 st oks hio hoks hlen hheap
    have hres : fs_write_to_flash st
        = write_sectors (total_size st.num_files) (esp_log_timestamp st)
            (sectors_needed st.num_files) 0 st := by
      unfold fs_write_to_flash
      dsimp only
      rw [if_neg hle, if_pos (by rw [h1]; exact he)]
    have hne : (fs_write_to_flash st).1 ≠ ESP_OK := by rw [hres, h1]; exact he
    refine ⟨by rw [hres, h1], by rw [hres, h2], fs_write_to_flash_frame st hne⟩

theorem write_cursor_witness :
    table_a_b_f.num_files ≤ MAX_FILES ∧
    ((fs_write_to_flash table_a_b_f).1 = ESP_OK ∧
      (fs_write_to_flash table_a_b_f).2.current_sector
        = (table_a_b_f.current_sector + sectors_needed table_a_b_f.num_files) % NUM_SECTORS) ∧
    ((fs_write_to_flash { table_a_b_f with io := [0, 0, 0, 7, 0] }).1 = 7 ∧
      (fs_write_to_flash { table_a_b_f with io := [0, 0, 0, 7, 0] }).2.io = [0] ∧
      (fs_write_to_flash { table_a_b_f with io := [0, 0, 0, 7, 0] }).2.current_sector
        = ({ table_a_b_f with io := [0, 0, 0, 7, 0] } : FS).current_sector) :=
  ⟨by decide,
   (write_cursor table_a_b_f (by decide)).2.1 (by decide) (by decide),
   (write_cursor { table_a_b_f with io := [0, 0, 0, 7, 0] } (by decide)).2.2.1
     [0, 0, 0] 7 [0] (by decide) rfl (by decide) (by decide) (by decide)⟩

/-! ## Recovery of a snapshot that spans several sectors -/

theorem written_header_count (st : FS) (hn : st.num_files ≤ MAX_FILES)
    (hok : (fs_write_to_flash st).1 = ESP_OK) :
    header_count (sector_bytes (fs_write_to_flash st).2.flash (target_sector st 0))
      = st.num_files := by
  obtain ⟨_, e2, _, _⟩ := size_facts st.num_files hn
  have htot : 11 < total_size st.num_files := by
    rw [e2]; unfold HEADER_SIZE; omega
  have h8 := placed_byte st hn hok 8 (by omega)
  have h9 := placed_byte st hn hok 9 (by omega)
  have h10 := placed_byte st hn hok 10 (by omega)
  have h11 := placed_byte st hn hok 11 (by omega)
  have hu : st.num_files < U32 := by
    unfold MAX_FILES at hn; unfold U32; omega
  unfold header_count sector_bytes
  rw [show target_sector st 0 * SECTOR_SIZE + 8
        = target_sector st (8 / SECTOR_SIZE) * SECTOR_SIZE + 8 % SECTOR_SIZE from rfl, h8,
      show target_sector st 0 * SECTOR_SIZE + 9
        = target_sector st (9 / SECTOR_SIZE) * SECTOR_SIZE + 9 % SECTOR_SIZE from rfl, h9,
      show target_sector st 0 * SECTOR_SIZE + 10
        = target_sector st (10 / SECTOR_SIZE) * SECTOR_SIZE + 10 % SECTOR_SIZE from rfl, h10,
      show target_sector st 0 * SECTOR_SIZE + 11
        = target_sector st (11 / SECTOR_SIZE) * SECTOR_SIZE + 11 % SECTOR_SIZE from rfl, h11]
  exact le32_le32_byte _ hu

/-- C19. One sector holds at most `(4096 - 12) / sizeof(File) = 3` records after
the header. For a table of more than 3 records (within capacity) a successful
`fs_write_to_flash` uses more than one sector, and a following
`fs_read_from_flash` (from any in-memory state, with the primitives
succeeding) whose scan selects the sector of the header just written returns
`ESP_ERR_INVALID_SIZE` and loads no record. -/
theorem oversized_snapshot_not_recovered (st st2 : FS)
    (hbig : 3 < st.num_files) (hn : st.num_files ≤ MAX_FILES)
    (hok : (fs_write_to_flash st).1 = ESP_OK)
    (hflash : st2.flash = (fs_write_to_flash st).2.flash)
    (hio2 : all_ok st2.io) (hheap2 : st2.heap_ok = true)
    (hsel : (scan_sectors st2 NUM_SECTORS).latest_sector = target_sector st 0)
    (hts : (scan_sectors st2 NUM_SECTORS).latest_timestamp ≠ 0) :
    (SECTOR_SIZE - HEADER_SIZE) / SIZEOF_FILE = 3 ∧
    1 < sectors_needed st.num_files ∧
    (fs_read_from_flash st2).1 = ESP_ERR_INVALID_SIZE ∧
    (fs_read_from_flash st2).2.files = st2.files := by
  obtain ⟨e1, _, e3, _⟩ := size_facts st.num_files hn
  have hcount := written_header_count st hn hok
  rw [← hflash] at hcount
  have hscan := scan_sectors_ok st2 hio2 NUM_SECTORS
  rw [hscan] at hsel hts
  dsimp only at hsel hts
  have e : ∀ fl : Nat → Nat, (fun k => fl (target_sector st 0 * SECTOR_SIZE + k))
      = sector_bytes fl (target_sector st 0) := fun _ => rfl
  have hok2 : all_ok ({ st2 with io := st2.io.drop NUM_SECTORS } : FS).io :=
    all_ok_drop _ hio2 _
  have hres : fs_read_from_flash st2
      = (ESP_ERR_INVALID_SIZE,
         { st2 with io := st2.io.drop (NUM_SECTORS + 1), num_files := st.num_files }) := by
    unfold fs_read_from_flash
    rw [hscan]
    dsimp only
    rw [if_neg hts, if_neg (show ¬ st2.heap_ok = false by rw [hheap2]; decide),
      esp_partition_read_ok _ hok2]
    dsimp only
    rw [if_neg (by decide), hsel, e, hcount,
      if_neg (by unfold MAX_FILES at *; omega),
      if_pos (by rw [e1]; unfold SIZEOF_FILE SECTOR_SIZE HEADER_SIZE; omega), List.drop_drop]
  refine ⟨by decide, ?_, by rw [hres], by rw [hres]⟩
  rw [e3]
  unfold HEADER_SIZE SIZEOF_FILE SECTOR_SIZE
  omega

set_option maxRecDepth 100000 in
theorem oversized_snapshot_not_recovered_witness :
    3 < table_a_b_f.num_files ∧
    (fs_write_to_flash table_a_b_f).1 = ESP_OK ∧
    (scan_sectors { boot_state with flash := (fs_write_to_flash table_a_b_f).2.flash }
      NUM_SECTORS).latest_sector = target_sector table_a_b_f 0 ∧
    ((SECTOR_SIZE - HEADER_SIZE) / SIZEOF_FILE = 3 ∧
      1 < sectors_needed table_a_b_f.num_files ∧
      (fs_read_from_flash
        { boot_state with flash := (fs_write_to_flash table_a_b_f).2.flash }).1
        = ESP_ERR_INVALID_SIZE ∧
      (fs_read_from_flash
        { boot_state with flash := (fs_write_to_flash table_a_b_f).2.flash }).2.files
        = ({ boot_state with flash := (fs_write_to_flash table_a_b_f).2.flash } : FS).files) :=
  ⟨by decide, by decide, by decide,
   oversized_snapshot_not_recovered table_a_b_f
     { boot_state with flash := (fs_write_to_flash table_a_b_f).2.flash }
     (by decide) (by decide) (by decide) rfl (by decide) (by decide) (by decide) (by decide)⟩

/-! ## The interval clock of the persistence scheduler -/

theorem not_due_within_interval (st : FS) (d : Nat) (hd : d ≤ 300000) :
    ¬ save_due { st with last_save_time := esp_log_timestamp st,
                         now := esp_log_timestamp st + d } := by
  unfold save_due esp_log_timestamp
  dsimp only
  unfold U32
  omega

/-- C21 (as amended). A call of `fs_periodic_save` writes a snapshot exactly when
the uptime elapsed since `last_save_time` (in `uint32_t` arithmetic) exceeds
300000 ms, and otherwise changes nothing. After a call that was due,
`last_save_time` is the current time whatever `fs_write_to_flash` returned, so
no call within the next 300000 ms is due, also after a failed write. -/
theorem periodic_save_interval (st : FS) :
    (save_due st →
      fs_periodic_save st
        = { (fs_write_to_flash st).2 with last_save_time := esp_log_timestamp st }) ∧
    (¬ save_due st → fs_periodic_save st = st) ∧
    (save_due st → (fs_periodic_save st).last_save_time = esp_log_timestamp st) ∧
    (save_due st → ∀ d, d ≤ 300000 →
      ¬ save_due { fs_periodic_save st with now := esp_log_timestamp st + d }) := by
  have hdue : save_due st →
      fs_periodic_save st
        = { (fs_write_to_flash st).2 with last_save_time := esp_log_timestamp st } := by
    intro h
    unfold save_due at h
    unfold fs_periodic_save
    dsimp only
    rw [if_pos h]
  refine ⟨hdue, ?_, ?_, ?_⟩
  · intro h
    unfold save_due at h
    unfold fs_periodic_save
    dsimp only
    rw [if_neg h]
  · intro h
    rw [hdue h]
  · intro h d hd
    rw [hdue h]
    have hnd := not_due_within_interval st d hd
    unfold save_due esp_log_timestamp at hnd ⊢
    exact hnd

theorem periodic_save_interval_witness :
    save_due save_fail_state ∧
    (fs_periodic_save save_fail_state).last_save_time = esp_log_timestamp save_fail_state ∧
    ¬ save_due { fs_periodic_save save_fail_state with
                 now := esp_log_timestamp save_fail_state + 300000 } ∧
    ¬ save_due fresh_state ∧
    fs_periodic_save fresh_state = fresh_state :=
  ⟨by decide,
   (periodic_save_interval save_fail_state).2.2.1 (by decide),
   (periodic_save_interval save_fail_state).2.2.2 (by decide) 300000 (by decide),
   by decide,
   (periodic_save_interval fresh_state).2.1 (by decide)⟩

set_option maxRecDepth 100000 in
/-- C21 (counterexample). At uptime 400000 ms with `last_save_time = 0` a call is
due; the erase fails with code 7, so no snapshot is written, yet
`last_save_time` becomes 400000. One millisecond later the call is not due
and writes nothing, although `fs_write_to_flash` would now succeed. -/
theorem failed_save_not_retried :
    save_due save_fail_state ∧
    (fs_write_to_flash save_fail_state).1 = 7 ∧
    (fs_periodic_save save_fail_state).flash 0 = 255 ∧
    (fs_periodic_save save_fail_state).last_save_time = 400000 ∧
    ¬ save_due { fs_periodic_save save_fail_state with now := 400001 } ∧
    (fs_periodic_save { fs_periodic_save save_fail_state with now := 400001 }).flash 0 = 255 ∧
    (fs_write_to_flash { fs_periodic_save save_fail_state with now := 400001 }).1 = ESP_OK ∧
    (fs_write_to_flash { fs_periodic_save save_fail_state with now := 400001 }).2.flash 0 = 70 := by
  refine ⟨by decide, by decide, by decide, by decide, by decide, by decide, by decide,
    by decide⟩

/-! ## Deletion compacts the table -/

/-- C22. Whenever `fs_delete_file` succeeds on a path resolving to the index `k`
of a record of the table, the count decreases by one, the records below `k`
are unchanged, and each record formerly at an index `i + 1 > k` is now at
index `i`, equal in all its fields (`parent_dir` included). -/
theorem delete_compacts (st : FS) (path : List Nat)
    (hok : (fs_delete_file st path).1 = true)
    (hk0 : 0 ≤ find_file st path)
    (hk : (find_file st path).toNat < st.num_files)
    (hu : st.num_files < U32) :
    (fs_delete_file st path).2.num_files + 1 = st.num_files ∧
    (∀ i, i < (find_file st path).toNat →
      (fs_delete_file st path).2.files i = st.files i) ∧
    (∀ i, (find_file st path).toNat ≤ i → i + 1 < st.num_files →
      (fs_delete_file st path).2.files i = st.files (i + 1)) := by
  obtain ⟨_, _, hres⟩ := fs_delete_file_success st path hok
  obtain ⟨e1, e2, _⟩ := fs_periodic_save_table (delete_table st path)
  have hcount : (st.num_files + U32 - 1) % U32 = st.num_files - 1 := by
    unfold U32 at hu ⊢
    omega
  rw [hres]
  dsimp only
  rw [e1, e2]
  unfold delete_table
  dsimp only
  rw [hcount]
  refine ⟨by omega, ?_, ?_⟩
  · intro i hi
    unfold shift_down
    rw [if_neg (by omega)]
  · intro i hi1 hi2
    unfold shift_down
    rw [hcount, if_pos ⟨hi1, by omega⟩]

theorem delete_compacts_witness :
    (fs_delete_file table_a_b_f [47, 97]).1 = true ∧
    (find_file table_a_b_f [47, 97]).toNat < table_a_b_f.num_files ∧
    ((fs_delete_file table_a_b_f [47, 97]).2.num_files + 1 = table_a_b_f.num_files ∧
      (∀ i, i < (find_file table_a_b_f [47, 97]).toNat →
        (fs_delete_file table_a_b_f [47, 97]).2.files i = table_a_b_f.files i) ∧
      (∀ i, (find_file table_a_b_f [47, 97]).toNat ≤ i → i + 1 < table_a_b_f.num_files →
        (fs_delete_file table_a_b_f [47, 97]).2.files i = table_a_b_f.files (i + 1))) :=
  ⟨by decide, by decide,
   delete_compacts table_a_b_f [47, 97] (by decide) (by decide) (by decide) (by decide)⟩

/-! ## Target sectors of one write -/

theorem headD_mem (l : List Int) (d : Int) (h : l.headD d ≠ d) : l.headD d ∈ l := by
  cases l with
  | nil => exact absurd rfl h
  | cons a t => exact List.mem_cons_self _ _

/-- The code `write_sectors` returns is `ESP_OK`, `ESP_ERR_NO_MEM` or a result
taken from the primitive script. -/
theorem write_sectors_code (total timestamp : Nat) :
    ∀ (r i : Nat) (st : FS),
      (write_sectors total timestamp r i st).1 = ESP_OK ∨
      (write_sectors total timestamp r i st).1 = ESP_ERR_NO_MEM ∨
      (write_sectors total timestamp r i st).1 ∈ st.io := by
  intro r
  induction r with
  | zero => intro i st; exact Or.inl rfl
  | succ r ih =>
    intro i st
    rw [write_sectors_succ]
    by_cases h1 : st.io.headD ESP_OK ≠ ESP_OK
    · rw [if_pos h1]
      exact Or.inr (Or.inr (headD_mem _ _ h1))
    · rw [if_neg h1]
      by_cases h2 : st.heap_ok = false
      · rw [if_pos h2]
        exact Or.inr (Or.inl rfl)
      · rw [if_neg h2]
        by_cases h3 : (st.io.drop 1).headD ESP_OK ≠ ESP_OK
        · rw [if_pos h3]
          exact Or.inr (Or.inr (List.mem_of_mem_drop (headD_mem _ _ h3)))
        · rw [if_neg h3]
          rcases ih (i + 1) _ with h | h | h
          · exact Or.inl h
          · exact Or.inr (Or.inl h)
          · exact Or.inr (Or.inr (List.mem_of_mem_drop h))

/-- C25. For a table of at most `MAX_FILES` records `sectors_needed` is at most
17, below `NUM_SECTORS`, so the size check of `fs_write_to_flash` never
fires: the call returns `ESP_ERR_INVALID_SIZE` only if a primitive itself
reports that code. The target sectors `(cursor + i) % NUM_SECTORS` of one
write are pairwise distinct, and after a successful write every target sector
still holds the buffer written to it, also when the snapshot wraps around
the end of the region. -/
theorem write_targets_distinct (st : FS) (hn : st.num_files ≤ MAX_FILES) :
    sectors_needed st.num_files ≤ 17 ∧ 17 < NUM_SECTORS ∧
    ¬ sectors_needed st.num_files > NUM_SECTORS ∧
    ((∀ e ∈ st.io, e ≠ ESP_ERR_INVALID_SIZE) →
      (fs_write_to_flash st).1 ≠ ESP_ERR_INVALID_SIZE) ∧
    (∀ i j, i < sectors_needed st.num_files → j < sectors_needed st.num_files → i ≠ j →
      target_sector st i ≠ target_sector st j) ∧
    ((fs_write_to_flash st).1 = ESP_OK →
      ∀ i off, i < sectors_needed st.num_files → off < write_size (total_size st.num_files) i →
        (fs_write_to_flash st).2.flash (target_sector st i * SECTOR_SIZE + off)
          = write_buffer st.files st.num_files (esp_log_timestamp st)
              (total_size st.num_files) i off) := by
  obtain ⟨_, _, _, h17⟩ := size_facts st.num_files hn
  have hle : ¬ sectors_needed st.num_files > NUM_SECTORS := by
    unfold NUM_SECTORS; omega
  refine ⟨h17, by decide, hle, ?_, ?_, ?_⟩
  · intro hio hbad
    have hcode := write_sectors_code (total_size st.num_files) (esp_log_timestamp st)
      (sectors_needed st.num_files) 0 st
    unfold fs_write_to_flash at hbad
    dsimp only at hbad
    rw [if_neg hle] at hbad
    split_ifs at hbad with h1
    · rcases hcode with h | h | h
      · exact h1 h
      · rw [h] at hbad
        exact absurd hbad (by decide)
      · exact hio _ h hbad
    · exact absurd (show ESP_OK = ESP_ERR_INVALID_SIZE from hbad) (by decide)
  · intro i j hi hj hij
    rcases Nat.lt_or_gt_of_ne hij with h | h
    · exact target_sector_ne st i j h (by unfold NUM_SECTORS; omega)
    · exact (target_sector_ne st j i h (by unfold NUM_SECTORS; omega)).symm
  · intro hok i off hi hoff
    obtain ⟨_, hloop, heq⟩ := fs_write_to_flash_ok st hok
    rw [heq]
    exact (write_sectors_flash (total_size st.num_files) (esp_log_timestamp st)
      (sectors_needed st.num_files) 0 st hloop (by unfold NUM_SECTORS; omega)).1
      i off (Nat.zero_le _) (by omega) hoff

set_option maxRecDepth 100000 in
theorem write_targets_distinct_witness :
    ({ full_state with current_sector := 20 } : FS).num_files ≤ MAX_FILES ∧
    sectors_needed ({ full_state with current_sector := 20 } : FS).num_files = 17 ∧
    target_sector { full_state with current_sector := 20 } 16 = 4 ∧
    (sectors_needed ({ full_state with current_sector := 20 } : FS).num_files ≤ 17 ∧
      17 < NUM_SECTORS ∧
      ¬ sectors_needed ({ full_state with current_sector := 20 } : FS).num_files > NUM_SECTORS ∧
      ((∀ e ∈ ({ full_state with current_sector := 20 } : FS).io, e ≠ ESP_ERR_INVALID_SIZE) →
        (fs_write_to_flash { full_state with current_sector := 20 }).1 ≠ ESP_ERR_INVALID_SIZE) ∧
      (∀ i j, i < sectors_needed ({ full_state with current_sector := 20 } : FS).num_files →
        j < sectors_needed ({ full_state with current_sector := 20 } : FS).num_files → i ≠ j →
        target_sector { full_state with current_sector := 20 } i
          ≠ target_sector { full_state with current_sector := 20 } j) ∧
      ((fs_write_to_flash { full_state with current_sector := 20 }).1 = ESP_OK →
        ∀ i off, i < sectors_needed ({ full_state with current_sector := 20 } : FS).num_files →
          off < write_size
            (total_size ({ full_state with current_sector := 20 } : FS).num_files) i →
          (fs_write_to_flash { full_state with current_sector := 20 }).2.flash
              (target_sector { full_state with current_sector := 20 } i * SECTOR_SIZE + off)
            = write_buffer ({ full_state with current_sector := 20 } : FS).files
                ({ full_state with current_sector := 20 } : FS).num_files
                (esp_log_timestamp { full_state with current_sector := 20 })
                (total_size ({ full_state with current_sector := 20 } : FS).num_files) i off)) :=
  ⟨by decide, by decide, by decide,
   write_targets_distinct { full_state with current_sector := 20 } (by decide)⟩

/-! ## The working path under `fs_change_dir` -/

theorem change_dir_up_at_root (st : FS) (h : st.current_dir = 0) :
    fs_change_dir st [DOT, DOT] = (true, st) := by
  unfold fs_change_dir
  rw [if_neg (by decide), if_pos (by decide), if_neg (by rw [h]; decide)]

/-- C23 (the code at the failing input). On the fresh table with the directory
`/a`, starting at the root, `fs_change_dir("a/")` succeeds and leaves the
working path `"/a/"`; `fs_change_dir("..")` then returns to index 0 but only
cuts the path at its last `'/'`, leaving `"/a"`, which resolves to index 1. -/
theorem trailing_slash_breaks_working_path :
    table_a.num_files = 2 ∧
    table_a.current_dir = 0 ∧
    table_a.current_path = [47] ∧
    (fs_change_dir table_a [97, 47]).1 = true ∧
    (fs_change_dir table_a [97, 47]).2.current_dir = 1 ∧
    (fs_change_dir table_a [97, 47]).2.current_path = [47, 97, 47] ∧
    (fs_change_dir (fs_change_dir table_a [97, 47]).2 [46, 46]).1 = true ∧
    table_a_cd.current_dir = 0 ∧
    table_a_cd.current_path = [47, 97] ∧
    find_file table_a_cd table_a_cd.current_path = 1 := by
  refine ⟨by decide, by decide, by decide, by decide, by decide, by decide, by decide,
    by decide, by decide, by decide⟩

/-! ## Writing a file and reading it back -/

/-- C24 (the code at the failing input). In the state after `cd a/`, `cd ..` (current
directory 0, working path `"/a"`), `fs_write_file("f", "hi", 2)` succeeds: it
resolves `"/a/f"` through the working path and creates that file. But
`fs_read_file("f")`, which resolves relative to the current directory, finds
nothing; the bytes are under `"/a/f"`. -/
theorem relative_write_not_read_back :
    table_a_cd.current_dir = 0 ∧
    table_a_cd.current_path = [47, 97] ∧
    write_full_path table_a_cd [102] = some [47, 97, 47, 102] ∧
    (fs_write_file table_a_cd [102] [104, 105] 2).1 = true ∧
    fs_read_file (fs_write_file table_a_cd [102] [104, 105] 2).2 [102] = none ∧
    fs_read_file (fs_write_file table_a_cd [102] [104, 105] 2).2 [47, 97, 47, 102]
      = some ([104, 105], 2) := by
  refine ⟨by decide, by decide, by decide, by decide, by decide, by decide⟩

/-- Closed form of a successful `fs_write_file`. -/
theorem fs_write_file_success (st : FS) (filename content : List Nat) (size : Nat)
    (hok : (fs_write_file st filename content size).1 = true) :
    ∃ full st1, write_full_path st filename = some full ∧
      (st1 = st ∨ ((fs_create_file st full content).1 = true ∧
        st1 = (fs_create_file st full content).2)) ∧
      find_file st1 full ≠ -1 ∧
      (st1.files (find_file st1 full).toNat).is_dir = false ∧
      size ≤ MAX_FILE_SIZE ∧
      fs_write_file st filename content size
        = (true, write_target st1 (find_file st1 full).toNat content size) := by
  unfold fs_write_file at hok ⊢
  cases hp : write_full_path st filename with
  | none => rw [hp] at hok; simp at hok
  | some full =>
    rw [hp] at hok
    dsimp only at hok ⊢
    by_cases hf : find_file st full = -1
    · rw [if_pos hf] at hok ⊢
      by_cases hc : (fs_create_file st full content).1 = false
      · rw [if_pos hc] at hok; simp at hok
      · rw [if_neg hc] at hok ⊢
        rw [if_pos hf] at hok ⊢
        by_cases hd : find_file (fs_create_file st full content).2 full = -1 ∨
            ((fs_create_file st full content).2.files
              (find_file (fs_create_file st full content).2 full).toNat).is_dir = true
        · rw [if_pos hd] at hok; simp at hok
        · rw [if_neg hd] at hok ⊢
          by_cases hs : size > MAX_FILE_SIZE
          · rw [if_pos hs] at hok; simp at hok
          · rw [if_neg hs]
            refine ⟨full, (fs_create_file st full content).2, rfl,
              Or.inr ⟨by simpa using hc, rfl⟩, fun h => hd (Or.inl h), ?_,
              Nat.le_of_not_gt hs, rfl⟩
            by_contra h
            exact hd (Or.inr (by simpa using h))
    · rw [if_neg hf] at hok ⊢
      dsimp only at hok ⊢
      rw [if_neg (by decide)] at hok ⊢
      rw [if_neg hf] at hok ⊢
      by_cases hd : find_file st full = -1 ∨ (st.files (find_file st full).toNat).is_dir = true
      · rw [if_pos hd] at hok; simp at hok
      · rw [if_neg hd] at hok ⊢
        by_cases hs : size > MAX_FILE_SIZE
        · rw [if_pos hs] at hok; simp at hok
        · rw [if_neg hs]
          refine ⟨full, st, rfl, Or.inl rfl, hf, ?_, Nat.le_of_not_gt hs, rfl⟩
          by_contra h
          exact hd (Or.inr (by simpa using h))

theorem find_child_congr (files files2 : Nat → File) (n : Nat) (cur : Int) (tok : List Nat)
    (h : ∀ i, (files2 i).name = (files i).name ∧ (files2 i).parent_dir = (files i).parent_dir) :
    find_child files2 n cur tok = find_child files n cur tok := by
  unfold find_child
  apply find_congr
  intro i _
  unfold is_child
  rw [(h i).1, (h i).2]

theorem find_walk_congr (files files2 : Nat → File) (n : Nat)
    (h : ∀ i, (files2 i).name = (files i).name ∧ (files2 i).parent_dir = (files i).parent_dir)
    (toks : List (List Nat)) :
    ∀ cur : Int, find_walk files2 n toks cur = find_walk files n toks cur := by
  induction toks with
  | nil => intro cur; rfl
  | cons tok toks ih =>
    intro cur
    rw [find_walk.eq_def, find_walk.eq_def]
    dsimp only
    rw [find_child_congr files files2 n cur tok h]
    cases find_child files n cur tok with
    | none => rfl
    | some i => exact ih _

theorem find_file_write_target (st1 : FS) (k : Nat) (content : List Nat) (size : Nat)
    (path : List Nat) :
    find_file (write_target st1 k content size) path = find_file st1 path := by
  unfold find_file write_target
  dsimp only
  apply find_walk_congr
  intro i
  unfold set_file
  split_ifs with h
  · subst h; exact ⟨rfl, rfl⟩
  · exact ⟨rfl, rfl⟩

/-- After a successful `fs_write_file`, `fs_read_file` on the full path that
`fs_write_file` resolved returns the written size and bytes; every other
record that existed before keeps all its fields. -/
theorem write_then_read_full (st : FS) (filename content : List Nat) (size : Nat)
    (hlen : size ≤ content.length)
    (hok : (fs_write_file st filename content size).1 = true) :
    ∃ full k, write_full_path st filename = some full ∧
      fs_read_file (fs_write_file st filename content size).2 full
        = some (content.take size, size) ∧
      (find_file (fs_write_file st filename content size).2 full).toNat = k ∧
      ∀ i, i < st.num_files → i ≠ k →
        (fs_write_file st filename content size).2.files i = st.files i := by
  obtain ⟨full, st1, hp, hst1, hfound, hfile, _, hres⟩ :=
    fs_write_file_success st filename content size hok
  refine ⟨full, (find_file st1 full).toNat, hp, ?_, ?_, ?_⟩
  · rw [hres]
    unfold fs_read_file
    dsimp only
    rw [find_file_write_target]
    have hrec : (write_target st1 (find_file st1 full).toNat content size).files
        (find_file st1 full).toNat
        = { st1.files (find_file st1 full).toNat with
            data := memcpy (st1.files (find_file st1 full).toNat).data content size,
            size := size } := by
      unfold write_target set_file
      dsimp only
      rw [if_pos rfl]
    rw [hrec]
    dsimp only
    rw [if_neg (by
      intro h
      rcases h with h | h
      · exact hfound h
      · rw [hfile] at h; exact absurd h (by decide)), memcpy_take _ _ _ hlen]
  · rw [hres]
    dsimp only
    rw [find_file_write_target]
  · intro i hi hik
    rw [hres]
    have h1 : (write_target st1 (find_file st1 full).toNat content size).files i
        = st1.files i := by
      unfold write_target set_file
      dsimp only
      rw [if_neg hik]
    dsimp only
    rw [h1]
    rcases hst1 with h | ⟨hc, h⟩
    · rw [h]
    · obtain ⟨_, _, _, hcf⟩ := fs_create_file_success st full content hc
      rw [h, hcf]
      dsimp only
      unfold set_file
      rw [if_neg (Nat.ne_of_lt hi)]

/-- For an absolute path the full path is the path itself, so a successful
`fs_write_file` is read back by `fs_read_file` on the same path. -/
theorem write_then_read_absolute (st : FS) (path content : List Nat) (size : Nat)
    (habs : path.head? = some SLASH) (hlen : size ≤ content.length)
    (hok : (fs_write_file st path content size).1 = true) :
    fs_read_file (fs_write_file st path content size).2 path
      = some (content.take size, size) := by
  obtain ⟨full, k, hp, hread, _, _⟩ := write_then_read_full st path content size hlen hok
  have hfull : full = path := by
    unfold write_full_path at hp
    rw [if_neg (by rw [habs]; exact fun h => h rfl)] at hp
    split_ifs at hp
    exact (Option.some.inj hp).symm
  rw [hfull] at hread
  exact hread


/-! ## Two sessions and a restart -/

/-- The outcome of `fs_create_file` depends on the state only through the table
and the current directory; the other globals are carried over. -/
theorem fs_create_file_congr (a b : FS) (path content : List Nat)
    (hf : b.files = a.files) (hn : b.num_files = a.num_files)
    (hd : b.current_dir = a.current_dir) :
    fs_create_file b path content
      = ((fs_create_file a path content).1,
         { b with
           files := (fs_create_file a path content).2.files,
           num_files := (fs_create_file a path content).2.num_files }) := by
  cases b with
  | mk bf bn bd bp bs bl bfl bio bnow bh bhp =>
    simp only at hf hn hd
    subst hf hn hd
    unfold fs_create_file find_file
    dsimp only
    split_ifs <;> rfl

theorem root_table_zero (i : Nat) (h : 1 ≤ i) : root_table i = zeroFile := by
  unfold root_table set_file
  rw [if_neg (by omega)]

set_option maxRecDepth 100000 in
/-- On the first boot `fs_init` formats the partition and reads the snapshot of
the formatted state back. -/
theorem first_boot_eq :
    first_boot = (fs_read_from_flash (fs_write_to_flash formatted_state).2).2 := by
  rfl

set_option maxRecDepth 100000 in
/-- The table after the first boot is the root-only table. -/
theorem first_boot_table : first_boot.files = root_table ∧ first_boot.num_files = 1 := by
  have hw := fs_write_to_flash_one formatted_state (by decide) rfl (by decide)
  have hread := snapshot_read_back formatted_state (fs_write_to_flash formatted_state).2
    (fun i _ => root_table_wf i) (by decide) (by decide) (by decide) (by decide) (by decide)
    (by decide) (by rw [hw]) (by rw [hw]; decide) (by rw [hw]; rfl)
  rw [first_boot_eq, hread]
  refine ⟨?_, rfl⟩
  funext i
  dsimp only
  rw [hw]
  by_cases hi : i < formatted_state.num_files
  · rw [if_pos hi]; rfl
  · rw [if_neg hi]; rfl

set_option maxRecDepth 100000 in
/-- The table saved by the first session is built: the root, then `/a`. -/
theorem session_one_built : Built session_one :=
  Built.create { first_boot with now := 400000 } [47, 97] [104, 105]
    (Built.root { first_boot with now := 400000 }
      first_boot_table.1 first_boot_table.2 (by decide))
    (by decide)

set_option maxRecDepth 100000 in
/-- On the second boot `fs_init` finds the magic in sector 0 and goes straight to
recovery. -/
theorem second_boot_eq :
    second_boot = (fs_read_from_flash (reboot (fs_write_to_flash session_one).2)).2 := by
  rfl

set_option maxRecDepth 100000 in
/-- The second boot recovers the table the first session saved. -/
theorem second_boot_table :
    second_boot.files = session_one.files ∧ second_boot.num_files = session_one.num_files := by
  obtain ⟨hwf, h1, h64, _⟩ := built_invariant _ session_one_built
  have hw := fs_write_to_flash_one session_one (by decide) (by decide) (by decide)
  have hread := snapshot_read_back session_one (reboot (fs_write_to_flash session_one).2)
    (fun i _ => hwf i) h1 h64 (by decide) (by decide) (by decide) (by decide)
    (by show (fs_write_to_flash session_one).2.flash = _
        rw [hw])
    (by decide) rfl
  rw [second_boot_eq, hread]
  refine ⟨?_, rfl⟩
  funext i
  dsimp only
  by_cases hi : i < session_one.num_files
  · rw [if_pos hi]
  · rw [if_neg hi]
    have hn : session_one.num_files = 2 := by decide
    rw [hn] at hi
    obtain ⟨_, _, _, hc⟩ := fs_create_file_success
      { first_boot with now := 400000 } [47, 97] [104, 105] (by decide)
    unfold session_one
    rw [hc]
    dsimp only
    rw [first_boot_table.1, first_boot_table.2]
    unfold set_file
    rw [if_neg (by omega), root_table_zero i (by omega)]
    rfl

set_option maxRecDepth 100000 in
/-- The table the second session saves is built: the root, then `/a`, then `/b`. -/
theorem session_two_built : Built session_two := by
  have hc := fs_create_file_congr { first_boot with now := 400000 }
    { second_boot with now := 5000, files := root_table, num_files := 1 }
    [47, 97] [104, 105] first_boot_table.1.symm first_boot_table.2.symm (by decide)
  have hroot : Built { second_boot with now := 5000, files := root_table, num_files := 1 } :=
    Built.root _ rfl rfl (by decide)
  have hstep := Built.create _ [47, 97] [104, 105] hroot (by rw [hc]; decide)
  rw [hc] at hstep
  have hback : ({ second_boot with
      now := 5000, files := session_one.files, num_files := session_one.num_files } : FS)
      = { second_boot with now := 5000 } := by
    rw [← second_boot_table.1, ← second_boot_table.2]
  have hprev : Built { second_boot with now := 5000 } := by
    rw [← hback]
    exact hstep
  exact Built.create _ [47, 98] [121, 111] hprev (by decide)

set_option maxRecDepth 100000 in
/-- C1 (the code at the failing input). The first session boots on an erased
partition and, at uptime 400000 ms, has created `/a` and saves; the device
restarts; the second session recovers that table and, at uptime 5000 ms, has
created `/b` and saves. The table of the second session is built from the
fresh one by successful creations, has three records and fits one sector, the
primitives succeed and the timestamp is not zero. `fs_write_to_flash` succeeds
and puts the snapshot (timestamp 5000, count 3) into sector 2, next to the
snapshot of the first session (timestamp 400000, count 2) in sector 1. Then
`fs_read_from_flash`, run at once or by `fs_init` after a restart, succeeds
but selects sector 1: it yields two records, not three, and `/b` is gone. -/
theorem snapshot_lost_after_shorter_session :
    (fs_init boot_state).1 = ESP_OK ∧
    (fs_write_to_flash session_one).1 = ESP_OK ∧
    (fs_init (reboot (fs_write_to_flash session_one).2)).1 = ESP_OK ∧
    Built session_two ∧
    session_two.num_files = 3 ∧
    total_size session_two.num_files ≤ SECTOR_SIZE ∧
    all_ok session_two.io ∧
    session_two.heap_ok = true ∧
    esp_log_timestamp session_two = 5000 ∧
    session_two.current_sector = 2 ∧
    find_file session_two [47, 98] = 2 ∧
    (fs_write_to_flash session_two).1 = ESP_OK ∧
    magic_ok (sector_bytes (fs_write_to_flash session_two).2.flash 2) = true ∧
    header_timestamp (sector_bytes (fs_write_to_flash session_two).2.flash 2) = 5000 ∧
    header_count (sector_bytes (fs_write_to_flash session_two).2.flash 2) = 3 ∧
    magic_ok (sector_bytes (fs_write_to_flash session_two).2.flash 1) = true ∧
    header_timestamp (sector_bytes (fs_write_to_flash session_two).2.flash 1) = 400000 ∧
    header_count (sector_bytes (fs_write_to_flash session_two).2.flash 1) = 2 ∧
    (scan_sectors (fs_write_to_flash session_two).2 NUM_SECTORS).latest_sector = 1 ∧
    (fs_read_from_flash (fs_write_to_flash session_two).2).1 = ESP_OK ∧
    (fs_read_from_flash (fs_write_to_flash session_two).2).2.num_files = 2 ∧
    find_file (fs_read_from_flash (fs_write_to_flash session_two).2).2 [47, 98] = -1 ∧
    (fs_init (reboot (fs_write_to_flash session_two).2)).1 = ESP_OK ∧
    (fs_init (reboot (fs_write_to_flash session_two).2)).2.num_files = 2 ∧
    find_file (fs_init (reboot (fs_write_to_flash session_two).2)).2 [47, 98] = -1 := by
  repeat' apply And.intro
  all_goals first | exact session_two_built | decide

end YerfOS
